import Mathlib

/-!
# Managed Kubernetes cluster resource of the OVH Terraform provider

A shallow embedding of `ovh/resource_cloud_project_kube.go` and
`ovh/types_cloud_project_kube.go`.

* Go strings are Lean strings. The only separators the code searches for are
  the one-byte characters `.` and `/`, so cutting at a byte offset of such a
  separator and cutting at its character position give the same pieces.
* A Go function that returns `error` becomes a function into `Result`; a
  runtime panic (slice bound or index out of range) is the constructor
  `Result.panic`.
* The remote client is an oracle `Client` answering each call from the list
  of calls issued so far; every operation threads that list explicitly, so
  the calls an operation issued are the suffix it appended.
* `schema.ResourceData` is the three layers the code reads and writes: the
  prior state, the planned values and the values written with `Set`.
-/

namespace Ovh

/-! ## Go strings -/

/-- Index of the last occurrence of `c` in `s`, or `-1` when there is none
(`strings.LastIndex` with a one-character separator). -/
def lastIndexChars : List Char → Char → Int
  | [], _ => -1
  | x :: xs, c =>
    let r := lastIndexChars xs c
    if 0 ≤ r then r + 1 else if x = c then 0 else -1

/-- Go `strings.LastIndex(s, sep)` for a one-character `sep`. -/
def LastIndex (s : String) (sep : Char) : Int :=
  lastIndexChars s.data sep

/-- Go slice expression `s[:hi]`: a bound below `0` or above `len(s)` is a
runtime panic, rendered as `none`. -/
def sliceTo (s : String) (hi : Int) : Option String :=
  if 0 ≤ hi ∧ hi ≤ (s.data.length : Int) then some (String.mk (s.data.take hi.toNat)) else none

/-- Index of the first occurrence of `c` in `s`, if any (`strings.Index` with
a one-character separator, `none` standing for `-1`). -/
def indexChars : List Char → Char → Option Nat
  | [], _ => none
  | x :: xs, c => if x = c then some 0 else (indexChars xs c).map (· + 1)

/-- Loop of Go `genSplit`: `k` further cuts are allowed; the remainder is the
last piece. -/
def splitNAux (sep : Char) : Nat → List Char → List (List Char)
  | 0, s => [s]
  | k + 1, s =>
    match indexChars s sep with
    | none => [s]
    | some m => s.take m :: splitNAux sep k (s.drop (m + 1))

/-- Go `strings.SplitN(s, sep, n)` for a one-character `sep` and `n ≥ 0`: at
most `n` pieces, the last one the unsplit remainder; no piece when `n = 0`. -/
def SplitN (s : String) (sep : Char) (n : Nat) : List String :=
  if n = 0 then [] else (splitNAux sep (n - 1) s.data).map String.mk

/-! ## Errors and results -/

/-- Go error values the code creates or receives. -/
inductive GoError where
  /-- Value of `fmt.Errorf` without `%w`. -/
  | errorf (text : String)
  /-- Value of `fmt.Errorf` with `%w`: a text that wraps a cause. -/
  | wrapf (text : String) (cause : GoError)
  /-- An `*ovh.APIError` with its HTTP code. -/
  | apiError (code : Int) (message : String)
  /-- Any other error of the transport. -/
  | transport (text : String)
  /-- State poller: the deadline passed while the status was still pending. -/
  | timeout (lastState : String)
  /-- State poller: a status neither pending nor target. -/
  | unexpectedState (state : String)
  deriving DecidableEq, Repr

/-- Outcome of a Go call: a value with a nil error, a non-nil error, or a
runtime panic. -/
inductive Result (α : Type) where
  | ok (a : α)
  | fail (e : GoError)
  | panic
  deriving DecidableEq, Repr

/-! ## Types of `types_cloud_project_kube.go` -/

structure CloudProjectKubeUpdatePolicyOpts where
  UpdatePolicy : String
  deriving DecidableEq, Repr

structure CloudProjectKubePutOpts where
  Name : Option String
  deriving DecidableEq, Repr

structure privateNetworkConfiguration where
  DefaultVrackGateway : String
  PrivateNetworkRoutingAsDefault : Bool
  deriving DecidableEq, Repr

structure CloudProjectKubeCreateOpts where
  Name : Option String
  PrivateNetworkId : Option String
  PrivateNetworkConfiguration : Option privateNetworkConfiguration
  Region : String
  Version : Option String
  UpdatePolicy : Option String
  deriving DecidableEq, Repr

structure CloudProjectKubeResponse where
  ControlPlaneIsUpToDate : Bool
  Id : String
  IsUpToDate : Bool
  Name : String
  NextUpgradeVersions : List String
  NodesUrl : String
  PrivateNetworkId : String
  Region : String
  Status : String
  UpdatePolicy : String
  Url : String
  Version : String
  deriving DecidableEq, Repr

structure CloudProjectKubeKubeConfigResponse where
  Content : String
  deriving DecidableEq, Repr

structure CloudProjectKubeUpdateOpts where
  Strategy : String
  deriving DecidableEq, Repr

structure CloudProjectKubeUpdatePNCOpts where
  DefaultVrackGateway : String
  PrivateNetworkRoutingAsDefault : Bool
  deriving DecidableEq, Repr

/-- Values the resource attributes hold (`interface{}` in the source). -/
inductive Value where
  | str (s : String)
  | bool (b : Bool)
  | strList (l : List String)
  | pncSet (l : List privateNetworkConfiguration)
  deriving DecidableEq, Repr

/-- The version entry of `ToMap`: `v.Version[:strings.LastIndex(v.Version, ".")]`;
`none` is the panic of the slice expression. -/
def CloudProjectKubeResponse.exposedVersion (v : CloudProjectKubeResponse) : Option String :=
  sliceTo v.Version (LastIndex v.Version '.')

/-- `CloudProjectKubeResponse.ToMap`: the attribute map, in the order the
source fills it; `none` when the version entry panics. -/
def CloudProjectKubeResponse.ToMap (v : CloudProjectKubeResponse) :
    Option (List (String × Value)) :=
  match v.exposedVersion with
  | none => none
  | some version =>
    some [ ("control_plane_is_up_to_date", Value.bool v.ControlPlaneIsUpToDate),
           ("id", Value.str v.Id),
           ("is_up_to_date", Value.bool v.IsUpToDate),
           ("name", Value.str v.Name),
           ("next_upgrade_versions", Value.strList v.NextUpgradeVersions),
           ("nodes_url", Value.str v.NodesUrl),
           ("private_network_id", Value.str v.PrivateNetworkId),
           ("region", Value.str v.Region),
           ("status", Value.str v.Status),
           ("update_policy", Value.str v.UpdatePolicy),
           ("url", Value.str v.Url),
           ("version", Value.str version) ]

/-- Go map lookup `m[key]` on an attribute map. -/
def mapGet (m : List (String × Value)) (key : String) : Option Value :=
  (m.find? (fun kv => kv.1 == key)).map (·.2)

/-! ## `schema.ResourceData` -/

/-- The part of `schema.ResourceData` the code uses: the id, the new-resource
mark, the prior state, the planned values (state with the configuration
applied) and the values written with `Set` during the operation. Attribute
values are typed by the schema. -/
structure ResourceData where
  id : String
  isNew : Bool
  prior : List (String × Value)
  planned : List (String × Value)
  written : List (String × Value)
  deriving DecidableEq, Repr

/-- Zero value of an attribute, by its schema type. -/
def zeroValue (key : String) : Value :=
  if key = "private_network_configuration" then Value.pncSet []
  else if key = "next_upgrade_versions" then Value.strList []
  else if key = "control_plane_is_up_to_date" ∨ key = "is_up_to_date" then Value.bool false
  else Value.str ""

/-- Type assertion `.(string)` on a schema-typed string attribute. -/
def Value.asString : Value → String
  | Value.str s => s
  | _ => ""

/-- Elements of `.(*schema.Set).List()` on the schema-typed set attribute. -/
def Value.asPncList : Value → List privateNetworkConfiguration
  | Value.pncSet l => l
  | _ => []

/-- `fmt.Sprint` of an attribute value (only reached with a string). -/
def Sprint : Value → String
  | Value.str s => s
  | Value.bool b => if b then "true" else "false"
  | Value.strList l => "[" ++ " ".intercalate l ++ "]"
  | Value.pncSet _ => ""

namespace ResourceData

def Id (d : ResourceData) : String := d.id

def SetId (d : ResourceData) (id : String) : ResourceData := { d with id := id }

def IsNewResource (d : ResourceData) : Bool := d.isNew

/-- `d.Set(key, value)`: the written layer shadows the planned one. -/
def Set (d : ResourceData) (key : String) (value : Value) : ResourceData :=
  { d with written := (key, value) :: d.written }

/-- `d.Get(key)`: the written value, else the planned one, else the zero value. -/
def Get (d : ResourceData) (key : String) : Value :=
  match mapGet d.written key with
  | some v => v
  | none => (mapGet d.planned key).getD (zeroValue key)

/-- `d.GetChange(key)`: the prior and the planned value. -/
def GetChange (d : ResourceData) (key : String) : Value × Value :=
  ((mapGet d.prior key).getD (zeroValue key), (mapGet d.planned key).getD (zeroValue key))

/-- `d.HasChange(key)`: the prior and the planned value differ. -/
def HasChange (d : ResourceData) (key : String) : Bool :=
  decide ((d.GetChange key).1 ≠ (d.GetChange key).2)

end ResourceData

/-! ## The remote client -/

inductive Method where
  | GET | POST | PUT | DELETE
  deriving DecidableEq, Repr

/-- Request payloads the code sends. -/
inductive Body where
  | none
  | create (opts : CloudProjectKubeCreateOpts)
  | update (opts : CloudProjectKubeUpdateOpts)
  | updatePolicy (opts : CloudProjectKubeUpdatePolicyOpts)
  | put (opts : CloudProjectKubePutOpts)
  | pnc (opts : CloudProjectKubeUpdatePNCOpts)
  deriving DecidableEq, Repr

/-- One call to the remote API. -/
structure Call where
  method : Method
  endpoint : String
  body : Body
  deriving DecidableEq, Repr

/-- What a call gives back: the error, and the response body as decoded into
a cluster record and into a kubeconfig response. -/
structure Reply where
  err : Option GoError
  kube : CloudProjectKubeResponse
  kubeconfig : CloudProjectKubeKubeConfigResponse
  deriving DecidableEq, Repr

/-- Behaviour of the remote side: the reply to a call, given the calls issued
before it. -/
abbrev Client := List Call → Call → Reply

/-- Issue one call: its reply and the extended list of calls. -/
def Client.send (client : Client) (method : Method) (endpoint : String) (body : Body)
    (calls : List Call) : Reply × List Call :=
  (client calls ⟨method, endpoint, body⟩, calls ++ [⟨method, endpoint, body⟩])

/-- A mutating call is any call other than a GET. -/
def Call.isMutating (c : Call) : Bool := decide (c.method ≠ Method.GET)

/-- The mutating calls of a list of calls, in order. -/
def mutatingCalls (calls : List Call) : List Call := calls.filter Call.isMutating

/-! ## State poller -/

/-- Result triple of a status-fetch function. -/
structure RefreshResult where
  res : CloudProjectKubeResponse
  state : String
  err : Option GoError
  deriving DecidableEq, Repr

/-- Modelled from the spec: the State Poller (`resource.StateChangeConf.WaitForState`
of the plugin SDK, not part of the sources). It invokes the status-fetch
function repeatedly: an error is propagated at once; a status in `target` is
success with the record; a status in `pending` polls again; any other status
is an immediate failure; when the deadline passes while still pending it fails
with a timeout naming the last observed status. The deadline is the number of
polls `polls` that fit into the timeout. -/
def WaitForState (refresh : List Call → RefreshResult × List Call)
    (pending target : List String) :
    Nat → String → List Call → Result CloudProjectKubeResponse × List Call
  | 0, last, calls => (Result.fail (GoError.timeout last), calls)
  | polls + 1, _, calls =>
    match (refresh calls).1.err with
    | some err => (Result.fail err, (refresh calls).2)
    | none =>
      if (refresh calls).1.state ∈ target then
        (Result.ok (refresh calls).1.res, (refresh calls).2)
      else if (refresh calls).1.state ∈ pending then
        WaitForState refresh pending target polls (refresh calls).1.state (refresh calls).2
      else
        (Result.fail (GoError.unexpectedState (refresh calls).1.state), (refresh calls).2)

/-- The error a wait returns (`_, err := stateConf.WaitForState()`). -/
def Result.toErr {α : Type} : Result α → Option GoError
  | Result.fail e => some e
  | _ => none

/-- Endpoint of the cluster record, `/cloud/project/%s/kube/%s`. -/
def kubeEndpoint (serviceName kubeId : String) : String :=
  "/cloud/project/" ++ serviceName ++ "/kube/" ++ kubeId

/-- The `Refresh` closure of `waitForCloudProjectKubeReady`. -/
def kubeReadyRefresh (client : Client) (serviceName kubeId : String)
    (calls : List Call) : RefreshResult × List Call :=
  let r := client.send Method.GET (kubeEndpoint serviceName kubeId) Body.none calls
  match r.1.err with
  | some err => (⟨r.1.kube, "", some err⟩, r.2)
  | none => (⟨r.1.kube, r.1.kube.Status, none⟩, r.2)

/-- `waitForCloudProjectKubeReady`. -/
def waitForCloudProjectKubeReady (polls : Nat) (client : Client)
    (serviceName kubeId : String) (pending target : List String)
    (calls : List Call) : Option GoError × List Call :=
  let w := WaitForState (kubeReadyRefresh client serviceName kubeId) pending target polls "" calls
  (w.1.toErr, w.2)

/-- The `Refresh` closure of `waitForCloudProjectKubeDeleted`: an API error
of code 404 is reported as the status `DELETED`. -/
def kubeDeletedRefresh (client : Client) (serviceName kubeId : String)
    (calls : List Call) : RefreshResult × List Call :=
  let r := client.send Method.GET (kubeEndpoint serviceName kubeId) Body.none calls
  match r.1.err with
  | some err =>
    match err with
    | GoError.apiError code _ =>
      if code = 404 then (⟨r.1.kube, "DELETED", none⟩, r.2) else (⟨r.1.kube, "", some err⟩, r.2)
    | _ => (⟨r.1.kube, "", some err⟩, r.2)
  | none => (⟨r.1.kube, r.1.kube.Status, none⟩, r.2)

/-- `waitForCloudProjectKubeDeleted`. -/
def waitForCloudProjectKubeDeleted (polls : Nat) (client : Client)
    (serviceName kubeId : String) (calls : List Call) : Option GoError × List Call :=
  let w := WaitForState (kubeDeletedRefresh client serviceName kubeId)
    ["DELETING"] ["DELETED"] polls "" calls
  (w.1.toErr, w.2)

/-! ## Helpers of the provider that the sources call -/

/-- Functions of the package `helpers` the code calls; their bodies are not
part of the sources, so the operations take them as parameters. -/
structure Helpers where
  /-- The call `helpers.GetNilStringPointerFromData(d, key)`. -/
  GetNilStringPointerFromData : ResourceData → String → Option String
  /-- The call `helpers.WaitAvailable(client, endpoint, 2*time.Minute)`. -/
  WaitAvailable : Client → String → List Call → Option GoError × List Call
  /-- The call `helpers.CheckDeleted(d, err, endpoint)`, which may update `d`. -/
  CheckDeleted : ResourceData → GoError → String → ResourceData × Option GoError

/-- A returned `error` as a result. -/
def ofErr : Option GoError → Result Unit
  | some e => Result.fail e
  | none => Result.ok ()

/-- `loadPrivateNetworkConfiguration`: `nil` for a nil interface, else the
fields of the last element of the set over a zero record. -/
def loadPrivateNetworkConfiguration (i : Option Value) : Option privateNetworkConfiguration :=
  match i with
  | none => none
  | some v =>
    some (v.asPncList.foldl
      (fun _ pnc => ⟨pnc.DefaultVrackGateway, pnc.PrivateNetworkRoutingAsDefault⟩)
      ⟨"", false⟩)

/-- `CloudProjectKubeCreateOpts.FromResource`. -/
def CloudProjectKubeCreateOpts.FromResource (h : Helpers) (d : ResourceData) :
    CloudProjectKubeCreateOpts :=
  { Region := (d.Get "region").asString
    Version := h.GetNilStringPointerFromData d "version"
    Name := h.GetNilStringPointerFromData d "name"
    UpdatePolicy := h.GetNilStringPointerFromData d "update_policy"
    PrivateNetworkId := h.GetNilStringPointerFromData d "private_network_id"
    PrivateNetworkConfiguration :=
      loadPrivateNetworkConfiguration (some (d.Get "private_network_configuration")) }

/-- Text `fmt` prints for a `String` method that dereferences a nil pointer. -/
def stringMethodPanic : String :=
  "%!s(PANIC=String method: runtime error: invalid memory address or nil pointer dereference)"

/-- `CloudProjectKubeCreateOpts.String` as `fmt` renders it with `%s`. -/
def CloudProjectKubeCreateOpts.String (s : CloudProjectKubeCreateOpts) : String :=
  match s.Name, s.Version with
  | some name, some version => name ++ "(" ++ s.Region ++ "): " ++ version
  | _, _ => stringMethodPanic

/-! ## Import -/

/-- `resourceCloudProjectKubeImportState`: the result slice and the updated
resource data. -/
def resourceCloudProjectKubeImportState (d : ResourceData) :
    Result (List ResourceData) × ResourceData :=
  let givenId := d.Id
  let splitId := SplitN givenId '/' 2
  match splitId with
  | [serviceName, id] =>
    let d1 := (d.SetId id).Set "service_name" (Value.str serviceName)
    (Result.ok [d1], d1)
  | _ => (Result.fail (GoError.errorf "Import Id is not service_name/kubeid formatted"), d)

/-! ## Read -/

/-- Body of the loop `for k, v := range res.ToMap()` of Read. -/
def applyEntry (d : ResourceData) (kv : String × Value) : ResourceData :=
  if kv.1 ≠ "id" then d.Set kv.1 kv.2 else d.SetId (Sprint kv.2)

/-- `resourceCloudProjectKubeRead`. -/
def resourceCloudProjectKubeRead (h : Helpers) (client : Client) (d : ResourceData)
    (calls : List Call) : Result Unit × ResourceData × List Call :=
  let serviceName := (d.Get "service_name").asString
  let endpoint := kubeEndpoint serviceName d.Id
  let r := client.send Method.GET endpoint Body.none calls
  match r.1.err with
  | some err => (ofErr (h.CheckDeleted d err endpoint).2, (h.CheckDeleted d err endpoint).1, r.2)
  | none =>
    let res := r.1.kube
    match res.ToMap with
    | none => (Result.panic, d, r.2)
    | some m =>
      let d1 := m.foldl applyEntry d
      if d1.IsNewResource then
        let endpoint := "/cloud/project/" ++ serviceName ++ "/kube/" ++ res.Id ++ "/kubeconfig"
        let k := client.send Method.POST endpoint Body.none r.2
        match k.1.err with
        | some err => (Result.fail err, d1, k.2)
        | none => (Result.ok (), d1.Set "kubeconfig" (Value.str k.1.kubeconfig.Content), k.2)
      else
        (Result.ok (), d1, r.2)

/-! ## Create -/

/-- `resourceCloudProjectKubeCreate`. -/
def resourceCloudProjectKubeCreate (h : Helpers) (polls : Nat) (client : Client)
    (d : ResourceData) (calls : List Call) : Result Unit × ResourceData × List Call :=
  let serviceName := (d.Get "service_name").asString
  let endpoint := "/cloud/project/" ++ serviceName ++ "/kube"
  let params := CloudProjectKubeCreateOpts.FromResource h d
  if params.UpdatePolicy ≠ none then
    (Result.fail (GoError.errorf "the attribute update_policy cannot be set at cluster creation time. Once the cluster is created this attribute can be set and/or updated. This is a temporary bug on our OVH APIV6 side"), d, calls)
  else
    let r := client.send Method.POST endpoint (Body.create params) calls
    match r.1.err with
    | some err =>
      (Result.fail (GoError.wrapf
        ("calling Post " ++ endpoint ++ " with params " ++ params.String ++ ":\n\t ") err), d, r.2)
    | none =>
      let res := r.1.kube
      let a := h.WaitAvailable client (kubeEndpoint serviceName res.Id) r.2
      match a.1 with
      | some err => (Result.fail err, d, a.2)
      | none =>
        let w := waitForCloudProjectKubeReady polls client serviceName res.Id
          ["INSTALLING"] ["READY"] a.2
        match w.1 with
        | some err =>
          (Result.fail (GoError.wrapf
            ("timeout while waiting kube " ++ res.Id ++ " to be READY: ") err), d, w.2)
        | none => resourceCloudProjectKubeRead h client (d.SetId res.Id) w.2

/-! ## Delete -/

/-- `resourceCloudProjectKubeDelete`. -/
def resourceCloudProjectKubeDelete (h : Helpers) (polls : Nat) (client : Client)
    (d : ResourceData) (calls : List Call) : Result Unit × ResourceData × List Call :=
  let serviceName := (d.Get "service_name").asString
  let endpoint := kubeEndpoint serviceName d.Id
  let r := client.send Method.DELETE endpoint Body.none calls
  match r.1.err with
  | some err => (ofErr (h.CheckDeleted d err endpoint).2, (h.CheckDeleted d err endpoint).1, r.2)
  | none =>
    let w := waitForCloudProjectKubeDeleted polls client serviceName d.Id r.2
    match w.1 with
    | some err =>
      (Result.fail (GoError.wrapf
        ("timeout while waiting kube " ++ d.Id ++ " to be DELETED: ") err), d, w.2)
    | none => (Result.ok (), d.SetId "", w.2)

/-! ## Update -/

/-- The functions of `github.com/hashicorp/go-version` the version check
calls, over the library's version type `V`. The library is an external
dependency, so the check takes it as a parameter. -/
structure VersionLib (V : Type) where
  /-- The call `version.NewVersion(s)`; `none` is a non-nil error. -/
  NewVersion : String → Option V
  /-- The method `Segments()`. -/
  Segments : V → List Int
  /-- The method `LessThan(other)`. -/
  LessThan : V → V → Bool

/-- Go `int` addition: the sum wrapped to 64 bits, two's complement. -/
def addInt64 (a b : Int) : Int :=
  (a + b + 9223372036854775808) % 18446744073709551616 - 9223372036854775808

/-- The version check of `resourceCloudProjectKubeUpdate`, from the two
`version.NewVersion` calls to the next-minor test. Both segment lists are read
from `oldVersion`, as in the source. An index out of range is a panic. -/
def versionCheck {V : Type} (lib : VersionLib V) (oldValue newValue : String) : Result Unit :=
  match lib.NewVersion oldValue with
  | none => Result.fail (GoError.errorf ("version " ++ oldValue ++ " does not match a semver"))
  | some oldVersion =>
    match lib.NewVersion newValue with
    | none => Result.fail (GoError.errorf ("version " ++ newValue ++ " does not match a semver"))
    | some newVersion =>
      let oldVersionSegments := lib.Segments oldVersion
      let newVersionSegments := lib.Segments oldVersion
      match oldVersionSegments[0]? with
      | none => Result.panic
      | some old0 =>
        if old0 ≠ 1 then Result.fail (GoError.errorf "the only supported major version is 1")
        else
          match newVersionSegments[0]? with
          | none => Result.panic
          | some new0 =>
            if new0 ≠ 1 then Result.fail (GoError.errorf "the only supported major version is 1")
            else if oldVersionSegments.length ≠ 2 ∨ newVersionSegments.length ≠ 2 then
              Result.fail (GoError.errorf
                "the version should only specify the major and minor versions (e.g. \\\"1.20\\\")")
            else if lib.LessThan newVersion oldVersion then
              Result.fail (GoError.errorf
                ("cannot downgrade cluster from " ++ oldValue ++ " to " ++ newValue))
            else
              match oldVersionSegments[1]?, newVersionSegments[1]? with
              | some old1, some new1 =>
                if addInt64 old1 1 ≠ new1 then
                  Result.fail (GoError.errorf
                    ("cannot upgrade cluster from " ++ oldValue ++ " to " ++ newValue ++
                      ", only next minor version is authorized"))
                else Result.ok ()
              | _, _ => Result.panic

/-- Sequencing of the blocks of Update: a block that returned (an error or a
panic) ends the function, otherwise the next block runs on the calls so far. -/
def andThen (r : Result Unit × List Call) (next : List Call → Result Unit × List Call) :
    Result Unit × List Call :=
  match r.1 with
  | Result.ok _ => next r.2
  | _ => r

/-- The call `POST .../update` of the version block. -/
def versionCall (serviceName : String) (d : ResourceData) : Call :=
  ⟨Method.POST, "/cloud/project/" ++ serviceName ++ "/kube/" ++ d.Id ++ "/update",
    Body.update ⟨"NEXT_MINOR"⟩⟩

/-- The call `PUT .../updatePolicy` of the update-policy block. -/
def updatePolicyCall (serviceName : String) (d : ResourceData) : Call :=
  ⟨Method.PUT, "/cloud/project/" ++ serviceName ++ "/kube/" ++ d.Id ++ "/updatePolicy",
    Body.updatePolicy ⟨(d.GetChange "update_policy").2.asString⟩⟩

/-- The call `PUT` on the cluster record of the name block. -/
def nameCall (serviceName : String) (d : ResourceData) : Call :=
  ⟨Method.PUT, kubeEndpoint serviceName d.Id,
    Body.put ⟨some (d.GetChange "name").2.asString⟩⟩

/-- The call `PUT .../privateNetworkConfiguration` of the last block: the
payload holds the fields of the last element of the new set, over a zero record. -/
def pncCall (serviceName : String) (d : ResourceData) : Call :=
  let pncOutput : privateNetworkConfiguration :=
    (d.GetChange "private_network_configuration").2.asPncList.foldl
      (fun _ pnc => ⟨pnc.DefaultVrackGateway, pnc.PrivateNetworkRoutingAsDefault⟩) ⟨"", false⟩
  ⟨Method.PUT,
    "/cloud/project/" ++ serviceName ++ "/kube/" ++ d.Id ++ "/privateNetworkConfiguration",
    Body.pnc ⟨pncOutput.DefaultVrackGateway, pncOutput.PrivateNetworkRoutingAsDefault⟩⟩

/-- Issue a prepared call. -/
def Client.issue (client : Client) (c : Call) (calls : List Call) : Reply × List Call :=
  client.send c.method c.endpoint c.body calls

/-- Block `if d.HasChange(kubeClusterVersionKey)` of Update. -/
def updateVersion {V : Type} (lib : VersionLib V) (polls : Nat) (client : Client)
    (serviceName : String) (d : ResourceData) (calls : List Call) : Result Unit × List Call :=
  if d.HasChange "version" then
    let oldValue := (d.GetChange "version").1.asString
    let newValue := (d.GetChange "version").2.asString
    match versionCheck lib oldValue newValue with
    | Result.ok _ =>
      let r := client.issue (versionCall serviceName d) calls
      match r.1.err with
      | some err => (Result.fail err, r.2)
      | none =>
        let w := waitForCloudProjectKubeReady polls client serviceName d.Id
          ["UPDATING", "REDEPLOYING", "RESETTING"] ["READY"] r.2
        match w.1 with
        | some err =>
          (Result.fail (GoError.wrapf
            ("timeout while waiting kube " ++ d.Id ++ " to be READY: ") err), w.2)
        | none => (Result.ok (), w.2)
    | Result.fail e => (Result.fail e, calls)
    | Result.panic => (Result.panic, calls)
  else (Result.ok (), calls)

/-- Block `if d.HasChange(kubeClusterUpdatePolicyKey)` of Update. -/
def updateUpdatePolicy (client : Client) (serviceName : String) (d : ResourceData)
    (calls : List Call) : Result Unit × List Call :=
  if d.HasChange "update_policy" then
    let r := client.issue (updatePolicyCall serviceName d) calls
    match r.1.err with
    | some err => (Result.fail err, r.2)
    | none => (Result.ok (), r.2)
  else (Result.ok (), calls)

/-- Block `if d.HasChange(kubeClusterNameKey)` of Update. -/
def updateName (client : Client) (serviceName : String) (d : ResourceData)
    (calls : List Call) : Result Unit × List Call :=
  if d.HasChange "name" then
    let r := client.issue (nameCall serviceName d) calls
    match r.1.err with
    | some err => (Result.fail err, r.2)
    | none => (Result.ok (), r.2)
  else (Result.ok (), calls)

/-- Block `if d.HasChange(kubeClusterPrivateNetworkConfigurationKey)` of Update. -/
def updatePrivateNetworkConfiguration (polls : Nat) (client : Client) (serviceName : String)
    (d : ResourceData) (calls : List Call) : Result Unit × List Call :=
  if d.HasChange "private_network_configuration" then
    let r := client.issue (pncCall serviceName d) calls
    match r.1.err with
    | some err => (Result.fail err, r.2)
    | none =>
      let w := waitForCloudProjectKubeReady polls client serviceName d.Id
        ["REDEPLOYING", "RESETTING"] ["READY"] r.2
      match w.1 with
      | some err =>
        (Result.fail (GoError.wrapf
          ("timeout while waiting kube " ++ d.Id ++ " to be READY: ") err), w.2)
      | none => (Result.ok (), w.2)
  else (Result.ok (), calls)

/-- The four blocks of Update in sequence: the result and the calls issued. -/
def updateBlocks {V : Type} (lib : VersionLib V) (polls : Nat)
    (client : Client) (serviceName : String) (d : ResourceData) (calls : List Call) :
    Result Unit × List Call :=
  andThen (updateVersion lib polls client serviceName d calls) fun calls1 =>
  andThen (updateUpdatePolicy client serviceName d calls1) fun calls2 =>
  andThen (updateName client serviceName d calls2) fun calls3 =>
  updatePrivateNetworkConfiguration polls client serviceName d calls3

/-- The version block of Update with the verdict of its version check given:
on a version change, a verdict other than no error is returned at once, and
after a verdict of no error come the POST and the wait of the block.
`updateVersion` is this block at the verdict of `versionCheck`. -/
def updateVersionWith (check : Result Unit) (polls : Nat) (client : Client)
    (serviceName : String) (d : ResourceData) (calls : List Call) : Result Unit × List Call :=
  if d.HasChange "version" then
    match check with
    | Result.ok _ =>
      let r := client.issue (versionCall serviceName d) calls
      match r.1.err with
      | some err => (Result.fail err, r.2)
      | none =>
        let w := waitForCloudProjectKubeReady polls client serviceName d.Id
          ["UPDATING", "REDEPLOYING", "RESETTING"] ["READY"] r.2
        match w.1 with
        | some err =>
          (Result.fail (GoError.wrapf
            ("timeout while waiting kube " ++ d.Id ++ " to be READY: ") err), w.2)
        | none => (Result.ok (), w.2)
    | Result.fail e => (Result.fail e, calls)
    | Result.panic => (Result.panic, calls)
  else (Result.ok (), calls)

/-- The four blocks of Update in sequence, with the verdict of the version
check given. `updateBlocks` is this sequence at the verdict of `versionCheck`. -/
def updateBlocksWith (check : Result Unit) (polls : Nat)
    (client : Client) (serviceName : String) (d : ResourceData) (calls : List Call) :
    Result Unit × List Call :=
  andThen (updateVersionWith check polls client serviceName d calls) fun calls1 =>
  andThen (updateUpdatePolicy client serviceName d calls1) fun calls2 =>
  andThen (updateName client serviceName d calls2) fun calls3 =>
  updatePrivateNetworkConfiguration polls client serviceName d calls3

/-- `resourceCloudProjectKubeUpdate`: the result, the resource data and the
calls issued. The function never writes to the resource data and ends with
`return nil`. -/
def resourceCloudProjectKubeUpdate {V : Type} (lib : VersionLib V) (polls : Nat)
    (client : Client) (d : ResourceData) (calls : List Call) :
    Result Unit × ResourceData × List Call :=
  let serviceName := (d.Get "service_name").asString
  let r := updateBlocks lib polls client serviceName d calls
  (r.1, d, r.2)

/-- The mutating calls of Update for the changed attributes, in the order of
the blocks: one call for each changed attribute, none for an unchanged one. -/
def expectedMutations (serviceName : String) (d : ResourceData) : List Call :=
  (if d.HasChange "version" then [versionCall serviceName d] else []) ++
  (if d.HasChange "update_policy" then [updatePolicyCall serviceName d] else []) ++
  (if d.HasChange "name" then [nameCall serviceName d] else []) ++
  (if d.HasChange "private_network_configuration" then [pncCall serviceName d] else [])

/-! ## Instances for evaluation on concrete inputs -/

/-- Parsed version of the instance `goVersionLib`: its numeric segments. -/
structure GoVersion where
  segments : List Int
  deriving DecidableEq, Repr

/-- A non-empty run of decimal digits as a number that fits a signed 64-bit
integer (`strconv.ParseInt(str, 10, 64)` on digits). -/
def parseDigits (cs : List Char) : Option Nat :=
  if cs ≠ [] ∧ cs.all Char.isDigit = true ∧
      cs.foldl (fun n c => 10 * n + (c.toNat - 48)) 0 < 9223372036854775808 then
    some (cs.foldl (fun n c => 10 * n + (c.toNat - 48)) 0)
  else none

/-- Pieces of a string between dots (`strings.Split(s, ".")`). -/
def splitDots : List Char → List (List Char)
  | [] => [[]]
  | c :: cs =>
    if c = '.' then [] :: splitDots cs
    else
      match splitDots cs with
      | [] => [[c]]
      | piece :: pieces => (c :: piece) :: pieces

/-- Segment comparison of `go-version`: a missing segment counts as zero. -/
def segmentsLess : List Int → List Int → Bool
  | [], ys => ys.any (· ≠ 0)
  | _ :: _, [] => false
  | x :: xs, y :: ys => if x = y then segmentsLess xs ys else decide (x < y)

/-- An instance of `VersionLib` for plain dotted-decimal strings, after
`hashicorp/go-version`: the segments are the numbers between the dots, padded
with zeros up to three segments, and compared segment by segment. Strings of
any other shape are reported malformed by this instance. It serves the
evaluation of concrete inputs; the general theorems hold for every
`VersionLib`. -/
def goVersionLib : VersionLib GoVersion where
  NewVersion := fun s =>
    match (splitDots s.data).mapM parseDigits with
    | none => none
    | some segs =>
      some ⟨segs.map (fun n => (n : Int)) ++ List.replicate (3 - segs.length) 0⟩
  Segments := fun v => v.segments
  LessThan := fun a b => segmentsLess a.segments b.segments

/-- A remote side on which every call succeeds, the cluster record being
`READY` with version `1.24.7`. -/
def okClient : Client := fun _ _ =>
  { err := none
    kube :=
      { ControlPlaneIsUpToDate := true, Id := "kube1", IsUpToDate := true, Name := "prod",
        NextUpgradeVersions := ["1.25"], NodesUrl := "nodes.example", PrivateNetworkId := "",
        Region := "GRA", Status := "READY", UpdatePolicy := "ALWAYS_UPDATE",
        Url := "kube1.example", Version := "1.24.7" }
    kubeconfig := ⟨"kubeconfig-content"⟩ }

/-- An instance of the helpers for the evaluation of concrete inputs: an empty
or missing string attribute is a nil pointer, the availability probe is one
GET, and a 404 clears the id. -/
def sampleHelpers : Helpers where
  GetNilStringPointerFromData := fun d key =>
    match mapGet d.planned key with
    | some (Value.str s) => if s = "" then none else some s
    | _ => none
  WaitAvailable := fun client endpoint calls =>
    ((client.send Method.GET endpoint Body.none calls).1.err,
      (client.send Method.GET endpoint Body.none calls).2)
  CheckDeleted := fun d err _ =>
    match err with
    | GoError.apiError 404 _ => (d.SetId "", none)
    | _ => (d, some err)

/-! ## Runs of the blocks of Update -/

/-- Text of the error Update returns when a wait fails. -/
def waitErrorText (d : ResourceData) : String :=
  "timeout while waiting kube " ++ d.Id ++ " to be READY: "

/-- The calls of Update that are followed by a wait, with the pending set of
that wait: the version call and the private network call. -/
def Waited (serviceName : String) (d : ResourceData) (c : Call) (pending : List String) : Prop :=
  (c = versionCall serviceName d ∧ pending = ["UPDATING", "REDEPLOYING", "RESETTING"]) ∨
  (c = pncCall serviceName d ∧ pending = ["REDEPLOYING", "RESETTING"])

/-- What a run of blocks of Update, started after `calls` and ended with `out`,
does with the remote side, `expected` being the mutating calls of the changed
attributes of these blocks and `check` the verdict of the version check:
* it only appends calls, and the mutating ones among them are, in order, the
  first ones of `expected`;
* they are all of `expected` when the run returns no error;
* when a mutating call is answered with an error, the run returns that error
  and that call is the last call issued;
* when the wait that follows the version call or the private network call
  fails, the run returns that error, wrapped, and ends with the calls of the
  wait;
* the run ends in one of four ways only: with no error, all of `expected`
  issued; with the verdict of a version check that rejected a version change;
  with the error that answered its last call, a mutating one; or with the
  wrapped error of a wait that failed, no mutating call following the call
  waited for. -/
def BlockRun (check : Result Unit) (polls : Nat) (client : Client) (serviceName : String)
    (d : ResourceData) (calls : List Call) (out : Result Unit × List Call)
    (expected : List Call) : Prop :=
  ∃ issued : List Call, out.2 = calls ++ issued ∧
    mutatingCalls issued <+: expected ∧
    (out.1 = Result.ok () → mutatingCalls issued = expected) ∧
    (∀ pre c post e, issued = pre ++ c :: post → c.isMutating = true →
      (client (calls ++ pre) c).err = some e → out.1 = Result.fail e ∧ post = []) ∧
    (∀ pre c post pending e, issued = pre ++ c :: post → Waited serviceName d c pending →
      (client (calls ++ pre) c).err = none →
      (waitForCloudProjectKubeReady polls client serviceName d.Id pending ["READY"]
        (calls ++ pre ++ [c])).1 = some e →
      out.1 = Result.fail (GoError.wrapf (waitErrorText d) e) ∧
      out.2 = (waitForCloudProjectKubeReady polls client serviceName d.Id pending ["READY"]
        (calls ++ pre ++ [c])).2) ∧
    ((out.1 = Result.ok () ∧ mutatingCalls issued = expected) ∨
      (d.HasChange "version" = true ∧ check ≠ Result.ok () ∧ out.1 = check) ∨
      (∃ pre c e, issued = pre ++ [c] ∧ c.isMutating = true ∧
        (client (calls ++ pre) c).err = some e ∧ out.1 = Result.fail e) ∨
      (∃ pre c post pending e, issued = pre ++ c :: post ∧ Waited serviceName d c pending ∧
        mutatingCalls post = [] ∧
        (client (calls ++ pre) c).err = none ∧
        (waitForCloudProjectKubeReady polls client serviceName d.Id pending ["READY"]
          (calls ++ pre ++ [c])).1 = some e ∧
        out.1 = Result.fail (GoError.wrapf (waitErrorText d) e) ∧
        out.2 = (waitForCloudProjectKubeReady polls client serviceName d.Id pending ["READY"]
          (calls ++ pre ++ [c])).2))

/-! ## Sample inputs -/

/-- A cluster record with the given version string. -/
def recordWithVersion (version : String) : CloudProjectKubeResponse :=
  { ControlPlaneIsUpToDate := true, Id := "kube1", IsUpToDate := true, Name := "prod",
    NextUpgradeVersions := [], NodesUrl := "nodes.example", PrivateNetworkId := "",
    Region := "GRA", Status := "READY", UpdatePolicy := "ALWAYS_UPDATE",
    Url := "kube1.example", Version := version }

/-- Resource data handed to Import: only the given key, as the id. -/
def importData (key : String) : ResourceData :=
  { id := key, isNew := false, prior := [], planned := [], written := [] }

/-- Resource data handed to Update for the cluster `kube1` of the project
`svc`: the prior and the planned version and name. -/
def updateData (oldVersion newVersion oldName newName : String) : ResourceData :=
  { id := "kube1", isNew := false,
    prior := [("service_name", Value.str "svc"), ("version", Value.str oldVersion),
      ("name", Value.str oldName)],
    planned := [("service_name", Value.str "svc"), ("version", Value.str newVersion),
      ("name", Value.str newName)],
    written := [] }

/-- Resource data handed to Create for the project `svc`, region `GRA`,
version `1.24`, with the given update policy. -/
def createData (updatePolicy : String) : ResourceData :=
  { id := "", isNew := true, prior := [],
    planned := [("service_name", Value.str "svc"), ("region", Value.str "GRA"),
      ("version", Value.str "1.24"), ("name", Value.str "prod"),
      ("update_policy", Value.str updatePolicy)],
    written := [] }

/-- Resource data handed to Read for the cluster `kube1` of the project `svc`,
holding the kubeconfig `stored-kubeconfig`. -/
def readData (isNew : Bool) : ResourceData :=
  { id := "kube1", isNew := isNew,
    prior := [("service_name", Value.str "svc"), ("kubeconfig", Value.str "stored-kubeconfig")],
    planned := [("service_name", Value.str "svc"),
      ("kubeconfig", Value.str "stored-kubeconfig")],
    written := [] }

/-- A remote side on which the cluster is `DELETING` for the first two calls
and not found from the third call on. -/
def deletingClient : Client := fun calls _ =>
  { err := if calls.length < 2 then none else some (GoError.apiError 404 "not found")
    kube := { recordWithVersion "1.24.7" with Status := "DELETING" }
    kubeconfig := ⟨""⟩ }

/-- Resource data handed to Update for the cluster `kube1` of the project
`svc`: the name changes from `a` to `b` and a private network configuration
with the given gateway is added. -/
def networkData (gateway : String) : ResourceData :=
  { id := "kube1", isNew := false,
    prior := [("service_name", Value.str "svc"), ("name", Value.str "a")],
    planned := [("service_name", Value.str "svc"), ("name", Value.str "b"),
      ("private_network_configuration", Value.pncSet [⟨gateway, true⟩])],
    written := [] }

/-- A remote side on which every call succeeds and the cluster record has the
status `ERROR`. -/
def errorStatusClient : Client := fun _ _ =>
  { err := none
    kube := { recordWithVersion "1.24.7" with Status := "ERROR" }
    kubeconfig := ⟨""⟩ }

/-- A remote side that answers every PUT with the API error 500 and any other
call with success. -/
def failingPutClient : Client := fun _ c =>
  { err := if c.method = Method.PUT then some (GoError.apiError 500 "internal") else none
    kube := recordWithVersion "1.24.7"
    kubeconfig := ⟨""⟩ }

/-! ## Lemmas on strings -/

theorem lastIndexChars_of_not_mem (c : Char) (s : List Char) (h : c ∉ s) :
    lastIndexChars s c = -1 := by
  induction s with
  | nil => rfl
  | cons x xs ih =>
    have hx : x ≠ c := fun e => h (by simp [e])
    have hxs : c ∉ xs := fun e => h (by simp [e])
    simp [lastIndexChars, ih hxs, hx]

theorem lastIndexChars_append (c : Char) (P S : List Char) (h : c ∉ S) :
    lastIndexChars (P ++ c :: S) c = (P.length : Int) := by
  induction P with
  | nil => simp [lastIndexChars, lastIndexChars_of_not_mem c S h]
  | cons x xs ih =>
    have h0 : (0 : Int) ≤ (xs.length : Int) := Int.ofNat_nonneg _
    show (if 0 ≤ lastIndexChars (xs ++ c :: S) c then lastIndexChars (xs ++ c :: S) c + 1
      else if x = c then 0 else -1) = ((xs.length + 1 : Nat) : Int)
    rw [ih]
    simp [h0]

theorem lastIndexChars_nonneg_of_mem (c : Char) (s : List Char) (h : c ∈ s) :
    ∃ P S, s = P ++ c :: S ∧ c ∉ S := by
  induction s with
  | nil => simp at h
  | cons x xs ih =>
    by_cases hxs : c ∈ xs
    · obtain ⟨P, S, hs, hS⟩ := ih hxs
      exact ⟨x :: P, S, by simp [hs], hS⟩
    · have hx : c = x := by
        rcases List.mem_cons.mp h with e | e
        · exact e
        · exact absurd e hxs
      exact ⟨[], xs, by simp [hx], hxs⟩

theorem sliceTo_append (P S : List Char) :
    sliceTo (String.mk (P ++ S)) (P.length : Int) = some (String.mk P) := by
  simp [sliceTo]

/-- Cutting at the last dot keeps what stands before it. -/
theorem exposedVersion_of_append (r : CloudProjectKubeResponse) (P S : String)
    (hS : '.' ∉ S.data) (hv : r.Version = P ++ "." ++ S) :
    r.exposedVersion = some P := by
  have hdata : r.Version = String.mk (P.data ++ '.' :: S.data) := by
    rw [hv]; apply String.ext; simp
  unfold CloudProjectKubeResponse.exposedVersion LastIndex
  rw [hdata]
  simp only [lastIndexChars_append '.' P.data S.data hS]
  exact sliceTo_append P.data ('.' :: S.data)

/-- Without a dot the slice bound is `-1` and the slice expression panics. -/
theorem exposedVersion_of_no_dot (r : CloudProjectKubeResponse) (h : '.' ∉ r.Version.data) :
    LastIndex r.Version '.' = -1 ∧ r.exposedVersion = none := by
  have h1 : LastIndex r.Version '.' = -1 := lastIndexChars_of_not_mem '.' _ h
  refine ⟨h1, ?_⟩
  simp [CloudProjectKubeResponse.exposedVersion, h1, sliceTo]

/-- The version entry of the map is the exposed version. -/
theorem ToMap_version (r : CloudProjectKubeResponse) :
    r.ToMap.bind (fun m => mapGet m "version") = r.exposedVersion.map Value.str := by
  unfold CloudProjectKubeResponse.ToMap
  cases r.exposedVersion with
  | none => rfl
  | some v =>
    simp only [Option.bind, mapGet, Option.map]
    rfl

theorem indexChars_of_not_mem (c : Char) (s : List Char) (h : c ∉ s) :
    indexChars s c = none := by
  induction s with
  | nil => rfl
  | cons x xs ih =>
    have hx : x ≠ c := fun e => h (by simp [e])
    have hxs : c ∉ xs := fun e => h (by simp [e])
    simp [indexChars, ih hxs, hx]

theorem indexChars_of_mem (c : Char) (s : List Char) (h : c ∈ s) :
    ∃ m, indexChars s c = some m ∧ c ∉ s.take m ∧ s = s.take m ++ c :: s.drop (m + 1) := by
  induction s with
  | nil => simp at h
  | cons x xs ih =>
    by_cases hx : x = c
    · exact ⟨0, by simp [indexChars, hx]⟩
    · have hxs : c ∈ xs := by
        rcases List.mem_cons.mp h with e | e
        · exact absurd e.symm hx
        · exact e
      obtain ⟨m, hm, hnot, hsplit⟩ := ih hxs
      refine ⟨m + 1, by simp [indexChars, hx, hm], ?_, ?_⟩
      · simp only [List.take_succ_cons, List.mem_cons, not_or]
        exact ⟨fun e => hx e.symm, hnot⟩
      · simp only [List.take_succ_cons, List.drop_succ_cons, List.cons_append]
        rw [← hsplit]

/-- A key without separator is one piece. -/
theorem SplitN_two_of_not_mem (k : String) (h : '/' ∉ k.data) :
    SplitN k '/' 2 = [k] := by
  simp [SplitN, splitNAux, indexChars_of_not_mem '/' k.data h]

/-- A key with a separator is cut at the first one, into two pieces. -/
theorem SplitN_two_of_mem (k : String) (h : '/' ∈ k.data) :
    ∃ sn id : String, k = sn ++ "/" ++ id ∧ '/' ∉ sn.data ∧ SplitN k '/' 2 = [sn, id] := by
  obtain ⟨m, hm, hnot, hsplit⟩ := indexChars_of_mem '/' k.data h
  refine ⟨String.mk (k.data.take m), String.mk (k.data.drop (m + 1)), ?_, hnot, ?_⟩
  · apply String.ext
    simpa using hsplit
  · simp [SplitN, splitNAux, hm]

/-- A record without dot in its version has no attribute map. -/
theorem ToMap_none_of_no_dot (r : CloudProjectKubeResponse) (h : '.' ∉ r.Version.data) :
    r.ToMap = none := by
  simp [CloudProjectKubeResponse.ToMap, (exposedVersion_of_no_dot r h).2]

/-- Read panics when the fetched record has no attribute map. -/
theorem Read_panic_of_ToMap_none (h : Helpers) (client : Client) (d : ResourceData)
    (calls : List Call)
    (hget : (client calls ⟨Method.GET, kubeEndpoint (d.Get "service_name").asString d.Id,
      Body.none⟩).err = none)
    (hmap : (client calls ⟨Method.GET, kubeEndpoint (d.Get "service_name").asString d.Id,
      Body.none⟩).kube.ToMap = none) :
    (resourceCloudProjectKubeRead h client d calls).1 = Result.panic := by
  simp [resourceCloudProjectKubeRead, Client.send, hget, hmap]

/-- Adding one to a Go `int` never gives the same number back. -/
theorem addInt64_one_ne (x : Int) : addInt64 x 1 ≠ x := by
  unfold addInt64
  omega

/-- The version check accepts no pair of versions: its last test compares the
old minor segment plus one with the old minor segment itself. -/
theorem versionCheck_ne_ok {V : Type} (lib : VersionLib V) (oldValue newValue : String) :
    versionCheck lib oldValue newValue ≠ Result.ok () := by
  unfold versionCheck
  cases lib.NewVersion oldValue with
  | none => simp
  | some ov =>
    cases lib.NewVersion newValue with
    | none => simp
    | some nv =>
      simp only []
      cases (lib.Segments ov)[0]? with
      | none => simp
      | some o0 =>
        simp only []
        split
        · simp
        · split
          · simp
          · split
            · simp
            · cases h1 : (lib.Segments ov)[1]? with
              | none => simp
              | some o1 => simp [addInt64_one_ne]

/-! ## Lemmas on the waits -/

/-- The GET of the cluster record. -/
theorem kubeReadyRefresh_calls (client : Client) (serviceName kubeId : String)
    (calls : List Call) :
    (kubeReadyRefresh client serviceName kubeId calls).2 =
      calls ++ [⟨Method.GET, kubeEndpoint serviceName kubeId, Body.none⟩] := by
  unfold kubeReadyRefresh
  simp only [Client.send]
  split <;> rfl

theorem kubeDeletedRefresh_calls (client : Client) (serviceName kubeId : String)
    (calls : List Call) :
    (kubeDeletedRefresh client serviceName kubeId calls).2 =
      calls ++ [⟨Method.GET, kubeEndpoint serviceName kubeId, Body.none⟩] := by
  unfold kubeDeletedRefresh
  simp only [Client.send]
  split
  · split
    · split <;> rfl
    · rfl
  · rfl

/-- A wait only appends polls of its status-fetch function. -/
theorem WaitForState_calls (refresh : List Call → RefreshResult × List Call) (g : Call)
    (hg : ∀ calls, (refresh calls).2 = calls ++ [g]) (pending target : List String) :
    ∀ (polls : Nat) (last : String) (calls : List Call),
      ∃ n, (WaitForState refresh pending target polls last calls).2 =
        calls ++ List.replicate n g := by
  intro polls
  induction polls with
  | zero => intro last calls; exact ⟨0, by simp [WaitForState]⟩
  | succ k ih =>
    intro last calls
    unfold WaitForState
    split
    · exact ⟨1, by simp [hg]⟩
    · split
      · exact ⟨1, by simp [hg]⟩
      · split
        · obtain ⟨n, hn⟩ := ih (refresh calls).1.state (refresh calls).2
          refine ⟨n + 1, ?_⟩
          rw [hn, hg, List.replicate_succ]
          simp
        · exact ⟨1, by simp [hg]⟩

theorem mutatingCalls_replicate_get (n : Nat) (endpoint : String) :
    mutatingCalls (List.replicate n ⟨Method.GET, endpoint, Body.none⟩) = [] := by
  induction n with
  | zero => rfl
  | succ k ih =>
    rw [List.replicate_succ]
    simp only [mutatingCalls, List.filter_cons] at ih ⊢
    simp [Call.isMutating, ih]

/-- A readiness wait appends GETs of the cluster record only. -/
theorem waitForCloudProjectKubeReady_calls (polls : Nat) (client : Client)
    (serviceName kubeId : String) (pending target : List String) (calls : List Call) :
    ∃ n, (waitForCloudProjectKubeReady polls client serviceName kubeId pending target calls).2 =
      calls ++ List.replicate n ⟨Method.GET, kubeEndpoint serviceName kubeId, Body.none⟩ := by
  unfold waitForCloudProjectKubeReady
  exact WaitForState_calls _ _ (kubeReadyRefresh_calls client serviceName kubeId)
    pending target polls "" calls

/-! ## Lemmas on the blocks of Update -/

theorem mutatingCalls_append (a b : List Call) :
    mutatingCalls (a ++ b) = mutatingCalls a ++ mutatingCalls b := by
  simp [mutatingCalls]

/-- The real version block is the block at the verdict of the version check. -/
theorem updateVersion_eq {V : Type} (lib : VersionLib V) (polls : Nat) (client : Client)
    (serviceName : String) (d : ResourceData) (calls : List Call) :
    updateVersion lib polls client serviceName d calls =
      updateVersionWith
        (versionCheck lib (d.GetChange "version").1.asString (d.GetChange "version").2.asString)
        polls client serviceName d calls := rfl

/-- The real blocks are the blocks at the verdict of the version check. -/
theorem updateBlocks_eq {V : Type} (lib : VersionLib V) (polls : Nat) (client : Client)
    (serviceName : String) (d : ResourceData) (calls : List Call) :
    updateBlocks lib polls client serviceName d calls =
      updateBlocksWith
        (versionCheck lib (d.GetChange "version").1.asString (d.GetChange "version").2.asString)
        polls client serviceName d calls := rfl

theorem versionCall_ne_pncCall (serviceName : String) (d : ResourceData) :
    versionCall serviceName d ≠ pncCall serviceName d := by
  simp [pncCall, versionCall]

/-- A call is waited for with one pending set only. -/
theorem Waited_pending_unique {serviceName : String} {d : ResourceData} {c : Call}
    {p1 p2 : List String} (h1 : Waited serviceName d c p1) (h2 : Waited serviceName d c p2) :
    p1 = p2 := by
  rcases h1 with ⟨hc1, hp1⟩ | ⟨hc1, hp1⟩ <;> rcases h2 with ⟨hc2, hp2⟩ | ⟨hc2, hp2⟩
  · rw [hp1, hp2]
  · exact absurd (hc1.symm.trans hc2) (versionCall_ne_pncCall serviceName d)
  · exact absurd (hc2.symm.trans hc1) (versionCall_ne_pncCall serviceName d)
  · rw [hp1, hp2]

theorem Waited_isMutating {serviceName : String} {d : ResourceData} {c : Call}
    {pending : List String} (h : Waited serviceName d c pending) : c.isMutating = true := by
  rcases h with ⟨hc, _⟩ | ⟨hc, _⟩ <;> rw [hc] <;> rfl

/-- Two runs in sequence are a run for the two lists of expected calls. -/
theorem BlockRun_andThen (check : Result Unit) (polls : Nat) (client : Client)
    (serviceName : String) (d : ResourceData) (calls : List Call)
    (out1 : Result Unit × List Call)
    (next : List Call → Result Unit × List Call) (exp1 exp2 : List Call)
    (h1 : BlockRun check polls client serviceName d calls out1 exp1)
    (h2 : out1.1 = Result.ok () →
      BlockRun check polls client serviceName d out1.2 (next out1.2) exp2) :
    BlockRun check polls client serviceName d calls (andThen out1 next) (exp1 ++ exp2) := by
  obtain ⟨i1, hc1, hp1, hok1, hf1, hw1, hd1⟩ := h1
  by_cases hr : out1.1 = Result.ok ()
  · have hand : andThen out1 next = next out1.2 := by simp [andThen, hr]
    rw [hand]
    obtain ⟨i2, hc2, hp2, hok2, hf2, hw2, hd2⟩ := h2 hr
    have hE : ∀ a : List Call, out1.2 ++ a = calls ++ (i1 ++ a) := by
      intro a
      rw [hc1, List.append_assoc]
    refine ⟨i1 ++ i2, by rw [hc2, hc1, List.append_assoc], ?_, ?_, ?_, ?_, ?_⟩
    · obtain ⟨t, ht⟩ := hp2
      exact ⟨t, by rw [mutatingCalls_append, hok1 hr, ← ht, List.append_assoc]⟩
    · intro h
      rw [mutatingCalls_append, hok1 hr, hok2 h]
    · intro pre c post e hdec hmut herr
      rcases List.append_eq_append_iff.mp hdec with ⟨a, hpre, hi2⟩ | ⟨a, hi1, hcp⟩
      · apply hf2 a c post e hi2 hmut
        rw [hE, ← hpre]
        exact herr
      · cases a with
        | nil =>
          simp only [List.nil_append, List.append_nil] at hi1 hcp
          apply hf2 [] c post e hcp.symm hmut
          rw [hE, List.append_nil, hi1]
          exact herr
        | cons x rest =>
          simp only [List.cons_append, List.cons.injEq] at hcp
          have hfail := (hf1 pre c rest e (by rw [hi1, hcp.1]) hmut herr).1
          rw [hfail] at hr
          exact absurd hr (by simp)
    · intro pre c post pending e hdec hc hnone hwait
      rcases List.append_eq_append_iff.mp hdec with ⟨a, hpre, hi2⟩ | ⟨a, hi1, hcp⟩
      · have hE2 : out1.2 ++ a = calls ++ pre := by rw [hE, ← hpre]
        have key := hw2 a c post pending e hi2 hc
          (by rw [hE2]; exact hnone) (by rw [hE2]; exact hwait)
        rw [hE2] at key
        exact key
      · cases a with
        | nil =>
          simp only [List.nil_append, List.append_nil] at hi1 hcp
          have hE2 : out1.2 ++ [] = calls ++ pre := by rw [hE, List.append_nil, hi1]
          have key := hw2 [] c post pending e hcp.symm hc
            (by rw [hE2]; exact hnone) (by rw [hE2]; exact hwait)
          rw [hE2] at key
          exact key
        | cons x rest =>
          simp only [List.cons_append, List.cons.injEq] at hcp
          have hfail := (hw1 pre c rest pending e (by rw [hi1, hcp.1]) hc hnone hwait).1
          rw [hfail] at hr
          exact absurd hr (by simp)
    · rcases hd2 with ⟨hok, hms⟩ | ⟨hv, hne, hout⟩ | ⟨pre, c, e, hi2, hmut, herr, hout⟩ |
        ⟨pre, c, post, pending, e, hi2, hc, hpost, hnone, hwait, hout, hcalls⟩
      · exact Or.inl ⟨hok, by rw [mutatingCalls_append, hok1 hr, hms]⟩
      · exact Or.inr (Or.inl ⟨hv, hne, hout⟩)
      · refine Or.inr (Or.inr (Or.inl ⟨i1 ++ pre, c, e, ?_, hmut, ?_, hout⟩))
        · rw [hi2, List.append_assoc]
        · rw [← hE]
          exact herr
      · have hE2 : out1.2 ++ pre = calls ++ (i1 ++ pre) := hE pre
        refine Or.inr (Or.inr (Or.inr ⟨i1 ++ pre, c, post, pending, e, ?_, hc, hpost, ?_, ?_,
          hout, ?_⟩))
        · rw [hi2, List.append_assoc]
        · rw [← hE2]
          exact hnone
        · rw [← hE2]
          exact hwait
        · rw [← hE2]
          exact hcalls
  · have hand : andThen out1 next = out1 := by
      unfold andThen
      split
      · rename_i u heq
        exact absurd heq hr
      · rfl
    rw [hand]
    refine ⟨i1, hc1, ?_, fun h => absurd h hr, hf1, hw1, ?_⟩
    · obtain ⟨t, ht⟩ := hp1
      exact ⟨t ++ exp2, by rw [← List.append_assoc, ht]⟩
    · rcases hd1 with ⟨hok, _⟩ | h
      · exact absurd hok hr
      · exact Or.inr h

/-- A block that issues nothing and returns no error is a run for no
expected call. -/
theorem BlockRun_done (check : Result Unit) (polls : Nat) (client : Client)
    (serviceName : String) (d : ResourceData) (calls : List Call) :
    BlockRun check polls client serviceName d calls (Result.ok (), calls) [] := by
  refine ⟨[], by simp, ⟨[], by simp [mutatingCalls]⟩, fun _ => rfl, ?_, ?_,
    Or.inl ⟨rfl, rfl⟩⟩
  · intro pre c post e hdec
    simp at hdec
  · intro pre c post pending e hdec
    simp at hdec

/-- The version block on a version change that the version check rejects. -/
theorem BlockRun_rejected (check : Result Unit) (polls : Nat) (client : Client)
    (serviceName : String) (d : ResourceData) (calls : List Call) (expected : List Call)
    (hchange : d.HasChange "version" = true) (hne : check ≠ Result.ok ()) :
    BlockRun check polls client serviceName d calls (check, calls) expected := by
  refine ⟨[], by simp, ⟨expected, by simp [mutatingCalls]⟩, fun h => absurd h hne, ?_, ?_,
    Or.inr (Or.inl ⟨hchange, hne, rfl⟩)⟩
  · intro pre c post e hdec
    simp at hdec
  · intro pre c post pending e hdec
    simp at hdec

theorem Client.issue_eq (client : Client) (c : Call) (calls : List Call) :
    client.issue c calls = (client calls c, calls ++ [c]) := rfl

theorem singleton_eq_append_cons {c c1 : Call} {pre post : List Call}
    (h : [c] = pre ++ c1 :: post) : pre = [] ∧ c1 = c ∧ post = [] := by
  cases pre with
  | nil =>
    simp only [List.nil_append, List.cons.injEq] at h
    exact ⟨rfl, h.1.symm, h.2.symm⟩
  | cons x rest => simp at h

/-- A block of one mutating call without wait. -/
theorem BlockRun_single (check : Result Unit) (polls : Nat) (client : Client)
    (serviceName : String) (d : ResourceData) (calls : List Call) (c : Call)
    (hmut : c.isMutating = true)
    (hv : c ≠ versionCall serviceName d) (hp : c ≠ pncCall serviceName d) :
    BlockRun check polls client serviceName d calls
      (match (client.issue c calls).1.err with
        | some err => (Result.fail err, (client.issue c calls).2)
        | none => (Result.ok (), (client.issue c calls).2)) [c] := by
  simp only [Client.issue_eq]
  have hm : mutatingCalls [c] = [c] := by simp [mutatingCalls, hmut]
  have hnw : ∀ (c1 : Call) (pending : List String), c1 = c →
      ¬ Waited serviceName d c1 pending := by
    intro c1 pending hc1 hw
    rcases hw with ⟨h, _⟩ | ⟨h, _⟩
    · exact absurd (hc1.symm.trans h) hv
    · exact absurd (hc1.symm.trans h) hp
  cases herr : (client calls c).err with
  | some err =>
    refine ⟨[c], rfl, by rw [hm], fun _ => hm, ?_, ?_, ?_⟩
    · intro pre c1 post e hdec _ he
      obtain ⟨hpre, hc1, hpost⟩ := singleton_eq_append_cons hdec
      subst hpre hc1
      simp only [List.append_nil] at he
      rw [herr] at he
      simp only [Option.some.injEq] at he
      exact ⟨by rw [he], hpost⟩
    · intro pre c1 post pending e hdec hc
      obtain ⟨_, hc1, _⟩ := singleton_eq_append_cons hdec
      exact absurd hc (hnw c1 pending hc1)
    · exact Or.inr (Or.inr (Or.inl ⟨[], c, err, rfl, hmut, by simpa using herr, rfl⟩))
  | none =>
    refine ⟨[c], rfl, by rw [hm], fun _ => hm, ?_, ?_, Or.inl ⟨rfl, hm⟩⟩
    · intro pre c1 post e hdec _ he
      obtain ⟨hpre, hc1, hpost⟩ := singleton_eq_append_cons hdec
      subst hpre hc1
      simp only [List.append_nil] at he
      rw [herr] at he
      simp at he
    · intro pre c1 post pending e hdec hc
      obtain ⟨_, hc1, _⟩ := singleton_eq_append_cons hdec
      exact absurd hc (hnw c1 pending hc1)

/-- Where a mutating call stands in a mutating call followed by GETs. -/
theorem cons_replicate_eq_append_cons {c c1 g : Call} {n : Nat} {pre post : List Call}
    (hg : g.isMutating = false) (hc1 : c1.isMutating = true)
    (h : c :: List.replicate n g = pre ++ c1 :: post) :
    pre = [] ∧ c1 = c ∧ post = List.replicate n g := by
  cases pre with
  | nil =>
    simp only [List.nil_append, List.cons.injEq] at h
    exact ⟨rfl, h.1.symm, h.2.symm⟩
  | cons x rest =>
    simp only [List.cons_append, List.cons.injEq] at h
    have hmem : c1 ∈ List.replicate n g := by rw [h.2]; simp
    rw [List.eq_of_mem_replicate hmem, hg] at hc1
    simp at hc1

/-- A block of one mutating call followed by a readiness wait. -/
theorem BlockRun_waited (check : Result Unit) (polls : Nat) (client : Client)
    (serviceName : String) (d : ResourceData) (calls : List Call) (c : Call)
    (pending : List String) (hcp : Waited serviceName d c pending) :
    BlockRun check polls client serviceName d calls
      (match (client.issue c calls).1.err with
        | some err => (Result.fail err, (client.issue c calls).2)
        | none =>
          match (waitForCloudProjectKubeReady polls client serviceName d.Id pending ["READY"]
            (client.issue c calls).2).1 with
          | some err =>
            (Result.fail (GoError.wrapf
              ("timeout while waiting kube " ++ d.Id ++ " to be READY: ") err),
              (waitForCloudProjectKubeReady polls client serviceName d.Id pending ["READY"]
                (client.issue c calls).2).2)
          | none =>
            (Result.ok (),
              (waitForCloudProjectKubeReady polls client serviceName d.Id pending ["READY"]
                (client.issue c calls).2).2)) [c] := by
  simp only [Client.issue_eq]
  have hmut : c.isMutating = true := Waited_isMutating hcp
  have hm : mutatingCalls [c] = [c] := by simp [mutatingCalls, hmut]
  cases herr : (client calls c).err with
  | some err =>
    refine ⟨[c], rfl, by rw [hm], fun _ => hm, ?_, ?_, ?_⟩
    · intro pre c1 post e hdec _ he
      obtain ⟨hpre, hc1, hpost⟩ := singleton_eq_append_cons hdec
      subst hpre hc1
      simp only [List.append_nil] at he
      rw [herr] at he
      simp only [Option.some.injEq] at he
      exact ⟨by rw [he], hpost⟩
    · intro pre c1 post pending1 e hdec hc hnone
      obtain ⟨hpre, hc1, _⟩ := singleton_eq_append_cons hdec
      subst hpre hc1
      simp only [List.append_nil] at hnone
      rw [herr] at hnone
      simp at hnone
    · exact Or.inr (Or.inr (Or.inl ⟨[], c, err, rfl, hmut, by simpa using herr, rfl⟩))
  | none =>
    obtain ⟨n, hn⟩ := waitForCloudProjectKubeReady_calls polls client serviceName d.Id
      pending ["READY"] (calls ++ [c])
    have hget : (⟨Method.GET, kubeEndpoint serviceName d.Id, Body.none⟩ : Call).isMutating
        = false := rfl
    have hpost : mutatingCalls
        (List.replicate n ⟨Method.GET, kubeEndpoint serviceName d.Id, Body.none⟩) = [] :=
      mutatingCalls_replicate_get n _
    have hms : mutatingCalls (c ::
        List.replicate n ⟨Method.GET, kubeEndpoint serviceName d.Id, Body.none⟩) = [c] := by
      have := mutatingCalls_append [c]
        (List.replicate n ⟨Method.GET, kubeEndpoint serviceName d.Id, Body.none⟩)
      simpa [hm, hpost] using this
    have hcalls : (waitForCloudProjectKubeReady polls client serviceName d.Id pending
        ["READY"] (calls ++ [c])).2 = calls ++ (c ::
          List.replicate n ⟨Method.GET, kubeEndpoint serviceName d.Id, Body.none⟩) := by
      rw [hn]
      simp
    cases hw : (waitForCloudProjectKubeReady polls client serviceName d.Id pending
        ["READY"] (calls ++ [c])).1 with
    | some werr =>
      refine ⟨c :: List.replicate n ⟨Method.GET, kubeEndpoint serviceName d.Id, Body.none⟩,
        hcalls, by rw [hms], fun h => by simp at h, ?_, ?_, ?_⟩
      · intro pre c1 post e hdec hc1mut he
        obtain ⟨hpre, hc1, _⟩ := cons_replicate_eq_append_cons hget hc1mut hdec
        subst hpre hc1
        simp only [List.append_nil] at he
        rw [herr] at he
        simp at he
      · intro pre c1 post pending1 e hdec hc _ hwait
        obtain ⟨hpre, hc1, _⟩ :=
          cons_replicate_eq_append_cons hget (Waited_isMutating hc) hdec
        subst hpre hc1
        have hpend := Waited_pending_unique hc hcp
        subst hpend
        simp only [List.append_nil] at hwait
        rw [hw] at hwait
        simp only [Option.some.injEq] at hwait
        subst hwait
        refine ⟨rfl, ?_⟩
        simp
      · refine Or.inr (Or.inr (Or.inr ⟨[], c,
          List.replicate n ⟨Method.GET, kubeEndpoint serviceName d.Id, Body.none⟩,
          pending, werr, rfl, hcp, hpost, by simpa using herr, by simpa using hw, rfl, ?_⟩))
        simp
    | none =>
      refine ⟨c :: List.replicate n ⟨Method.GET, kubeEndpoint serviceName d.Id, Body.none⟩,
        hcalls, by rw [hms], fun _ => hms, ?_, ?_, Or.inl ⟨rfl, hms⟩⟩
      · intro pre c1 post e hdec hc1mut he
        obtain ⟨hpre, hc1, _⟩ := cons_replicate_eq_append_cons hget hc1mut hdec
        subst hpre hc1
        simp only [List.append_nil] at he
        rw [herr] at he
        simp at he
      · intro pre c1 post pending1 e hdec hc _ hwait
        obtain ⟨hpre, hc1, _⟩ :=
          cons_replicate_eq_append_cons hget (Waited_isMutating hc) hdec
        subst hpre hc1
        have hpend := Waited_pending_unique hc hcp
        subst hpend
        simp only [List.append_nil] at hwait
        rw [hw] at hwait
        simp at hwait

theorem BlockRun_updateVersionWith (check : Result Unit) (polls : Nat) (client : Client)
    (serviceName : String) (d : ResourceData) (calls : List Call) :
    BlockRun check polls client serviceName d calls
      (updateVersionWith check polls client serviceName d calls)
      (if d.HasChange "version" then [versionCall serviceName d] else []) := by
  unfold updateVersionWith
  by_cases hchange : d.HasChange "version" = true
  · simp only [hchange, if_true]
    cases check with
    | ok u =>
      exact BlockRun_waited (Result.ok u) polls client serviceName d calls _ _
        (Or.inl ⟨rfl, rfl⟩)
    | fail e => exact BlockRun_rejected _ _ _ _ _ _ _ hchange (by simp)
    | panic => exact BlockRun_rejected _ _ _ _ _ _ _ hchange (by simp)
  · simp only [hchange]
    exact BlockRun_done _ _ _ _ _ _

theorem BlockRun_updateUpdatePolicy (check : Result Unit) (polls : Nat) (client : Client)
    (serviceName : String) (d : ResourceData) (calls : List Call) :
    BlockRun check polls client serviceName d calls
      (updateUpdatePolicy client serviceName d calls)
      (if d.HasChange "update_policy" then [updatePolicyCall serviceName d] else []) := by
  unfold updateUpdatePolicy
  by_cases hchange : d.HasChange "update_policy" = true
  · simp only [hchange, if_true]
    exact BlockRun_single check polls client serviceName d calls _ rfl
      (by simp [updatePolicyCall, versionCall]) (by simp [updatePolicyCall, pncCall])
  · simp only [hchange]
    exact BlockRun_done _ _ _ _ _ _

theorem BlockRun_updateName (check : Result Unit) (polls : Nat) (client : Client)
    (serviceName : String) (d : ResourceData) (calls : List Call) :
    BlockRun check polls client serviceName d calls
      (updateName client serviceName d calls)
      (if d.HasChange "name" then [nameCall serviceName d] else []) := by
  unfold updateName
  by_cases hchange : d.HasChange "name" = true
  · simp only [hchange, if_true]
    exact BlockRun_single check polls client serviceName d calls _ rfl
      (by simp [nameCall, versionCall]) (by simp [nameCall, pncCall])
  · simp only [hchange]
    exact BlockRun_done _ _ _ _ _ _

theorem BlockRun_updatePrivateNetworkConfiguration (check : Result Unit) (polls : Nat)
    (client : Client) (serviceName : String) (d : ResourceData) (calls : List Call) :
    BlockRun check polls client serviceName d calls
      (updatePrivateNetworkConfiguration polls client serviceName d calls)
      (if d.HasChange "private_network_configuration" then [pncCall serviceName d] else []) := by
  unfold updatePrivateNetworkConfiguration
  by_cases hchange : d.HasChange "private_network_configuration" = true
  · simp only [hchange, if_true]
    exact BlockRun_waited check polls client serviceName d calls _ _ (Or.inr ⟨rfl, rfl⟩)
  · simp only [hchange]
    exact BlockRun_done _ _ _ _ _ _

/-- The four blocks of Update are a run for the calls of the changed attributes. -/
theorem BlockRun_updateBlocksWith (check : Result Unit) (polls : Nat) (client : Client)
    (serviceName : String) (d : ResourceData) (calls : List Call) :
    BlockRun check polls client serviceName d calls
      (updateBlocksWith check polls client serviceName d calls)
      (expectedMutations serviceName d) := by
  unfold updateBlocksWith expectedMutations
  simp only [List.append_assoc]
  apply BlockRun_andThen _ _ _ _ _ _ _ _ _ _
    (BlockRun_updateVersionWith check polls client _ d calls)
  intro _
  apply BlockRun_andThen _ _ _ _ _ _ _ _ _ _
    (BlockRun_updateUpdatePolicy check polls client _ d _)
  intro _
  apply BlockRun_andThen _ _ _ _ _ _ _ _ _ _ (BlockRun_updateName check polls client _ d _)
  intro _
  exact BlockRun_updatePrivateNetworkConfiguration check polls client _ d _

/-! ## Lemmas on Read and on the delete wait -/

/-- Writing the attribute map of a fetched record touches neither the
kubeconfig attribute nor the new-resource mark. -/
theorem foldl_applyEntry_ToMap (r : CloudProjectKubeResponse) (d : ResourceData)
    (m : List (String × Value)) (hm : r.ToMap = some m) :
    (m.foldl applyEntry d).Get "kubeconfig" = d.Get "kubeconfig" ∧
      (m.foldl applyEntry d).IsNewResource = d.IsNewResource := by
  unfold CloudProjectKubeResponse.ToMap at hm
  cases hv : r.exposedVersion with
  | none => simp [hv] at hm
  | some v =>
    simp only [hv, Option.some.injEq] at hm
    subst hm
    simp +decide [List.foldl, applyEntry, ResourceData.Get, ResourceData.Set, ResourceData.SetId,
      ResourceData.IsNewResource, mapGet]

/-- The delete wait succeeds at the first poll answered with a 404, the polls
before it having observed `DELETING`. -/
theorem WaitForState_deleted (client : Client) (serviceName kubeId : String) :
    ∀ (k polls : Nat) (last : String) (calls : List Call), k < polls →
      (∀ i, i < k →
        (client (calls ++ List.replicate i ⟨Method.GET, kubeEndpoint serviceName kubeId, Body.none⟩)
          ⟨Method.GET, kubeEndpoint serviceName kubeId, Body.none⟩).err = none ∧
        (client (calls ++ List.replicate i ⟨Method.GET, kubeEndpoint serviceName kubeId, Body.none⟩)
          ⟨Method.GET, kubeEndpoint serviceName kubeId, Body.none⟩).kube.Status = "DELETING") →
      (∃ msg,
        (client (calls ++ List.replicate k ⟨Method.GET, kubeEndpoint serviceName kubeId, Body.none⟩)
          ⟨Method.GET, kubeEndpoint serviceName kubeId, Body.none⟩).err
          = some (GoError.apiError 404 msg)) →
      (WaitForState (kubeDeletedRefresh client serviceName kubeId) ["DELETING"] ["DELETED"]
          polls last calls).1.toErr = none ∧
        (WaitForState (kubeDeletedRefresh client serviceName kubeId) ["DELETING"] ["DELETED"]
          polls last calls).2 =
          calls ++ List.replicate (k + 1)
            ⟨Method.GET, kubeEndpoint serviceName kubeId, Body.none⟩ := by
  intro k
  induction k with
  | zero =>
    intro polls last calls hlt _ hnf
    obtain ⟨msg, hmsg⟩ := hnf
    simp only [List.replicate_zero, List.append_nil] at hmsg
    obtain ⟨p, rfl⟩ : ∃ p, polls = p + 1 := ⟨polls - 1, by omega⟩
    unfold WaitForState
    simp [kubeDeletedRefresh, Client.send, hmsg, Result.toErr]
  | succ k ih =>
    intro polls last calls hlt hpend hnf
    obtain ⟨p, rfl⟩ : ∃ p, polls = p + 1 := ⟨polls - 1, by omega⟩
    have h0 := hpend 0 (by omega)
    simp only [List.replicate_zero, List.append_nil] at h0
    have hstep := ih p "DELETING"
      (calls ++ [⟨Method.GET, kubeEndpoint serviceName kubeId, Body.none⟩]) (by omega)
      (fun i hi => by
        have := hpend (i + 1) (by omega)
        simpa [List.replicate_succ] using this)
      (by
        obtain ⟨msg, hmsg⟩ := hnf
        exact ⟨msg, by simpa [List.replicate_succ] using hmsg⟩)
    unfold WaitForState
    simp only [kubeDeletedRefresh, Client.send, h0.1, h0.2]
    simp only [kubeDeletedRefresh, Client.send] at hstep
    simp +decide only [List.mem_singleton, if_true, if_false]
    rw [hstep.1, hstep.2]
    simp [List.replicate_succ]

/-! ## Evaluations on the sample inputs -/

/-- Delete on a cluster that is `DELETING` at the first poll and not found at
the second: success, the id cleared, after one DELETE and two GETs. -/
theorem Delete_sample :
    resourceCloudProjectKubeDelete sampleHelpers 5 deletingClient (readData false) [] =
      (Result.ok (), (readData false).SetId "",
        [⟨Method.DELETE, "/cloud/project/svc/kube/kube1", Body.none⟩,
          ⟨Method.GET, "/cloud/project/svc/kube/kube1", Body.none⟩,
          ⟨Method.GET, "/cloud/project/svc/kube/kube1", Body.none⟩]) := by
  decide

/-- Read of a resource that is not new: one GET, the stored kubeconfig kept. -/
theorem Read_sample_not_new :
    (resourceCloudProjectKubeRead sampleHelpers okClient (readData false) []).2.2 =
        [⟨Method.GET, "/cloud/project/svc/kube/kube1", Body.none⟩] ∧
      (resourceCloudProjectKubeRead sampleHelpers okClient (readData false) []).2.1.Get
        "kubeconfig" = Value.str "stored-kubeconfig" ∧
      (resourceCloudProjectKubeRead sampleHelpers okClient (readData false) []).2.1.Get
        "version" = Value.str "1.24" := by
  decide

/-- Read of a new resource: the GET, then the POST to the kubeconfig endpoint,
whose content is stored. -/
theorem Read_sample_new :
    (resourceCloudProjectKubeRead sampleHelpers okClient (readData true) []).2.2 =
        [⟨Method.GET, "/cloud/project/svc/kube/kube1", Body.none⟩,
          ⟨Method.POST, "/cloud/project/svc/kube/kube1/kubeconfig", Body.none⟩] ∧
      (resourceCloudProjectKubeRead sampleHelpers okClient (readData true) []).2.1.Get
        "kubeconfig" = Value.str "kubeconfig-content" := by
  decide

/-- Create without update policy on a remote side where every call succeeds:
the POST, the availability probe, one poll of the readiness wait, then the
calls of Read. -/
theorem Create_sample :
    (resourceCloudProjectKubeCreate sampleHelpers 3 okClient (createData "") []).1 =
        Result.ok () ∧
      ((resourceCloudProjectKubeCreate sampleHelpers 3 okClient (createData "") []).2.2.map
        (fun c => (c.method, c.endpoint))) =
        [(Method.POST, "/cloud/project/svc/kube"),
          (Method.GET, "/cloud/project/svc/kube/kube1"),
          (Method.GET, "/cloud/project/svc/kube/kube1"),
          (Method.GET, "/cloud/project/svc/kube/kube1"),
          (Method.POST, "/cloud/project/svc/kube/kube1/kubeconfig")] := by
  decide

/-- Update of the name and of the private network configuration when the
cluster then shows the status `ERROR`: both PUTs are issued, the wait fails at
its first poll, and Update returns that error wrapped. -/
theorem Update_sample_wait_failure :
    resourceCloudProjectKubeUpdate goVersionLib 3 errorStatusClient (networkData "10.0.0.1") [] =
      (Result.fail (GoError.wrapf "timeout while waiting kube kube1 to be READY: "
          (GoError.unexpectedState "ERROR")),
        networkData "10.0.0.1",
        [⟨Method.PUT, "/cloud/project/svc/kube/kube1", Body.put ⟨some "b"⟩⟩,
          ⟨Method.PUT, "/cloud/project/svc/kube/kube1/privateNetworkConfiguration",
            Body.pnc ⟨"10.0.0.1", true⟩⟩,
          ⟨Method.GET, "/cloud/project/svc/kube/kube1", Body.none⟩]) := by
  decide

/-- Update of the name and of the private network configuration when every PUT
fails: the PUT of the name is the only call, and its error is returned. -/
theorem Update_sample_mutation_failure :
    resourceCloudProjectKubeUpdate goVersionLib 3 failingPutClient (networkData "10.0.0.1") [] =
      (Result.fail (GoError.apiError 500 "internal"), networkData "10.0.0.1",
        [⟨Method.PUT, "/cloud/project/svc/kube/kube1", Body.put ⟨some "b"⟩⟩]) := by
  decide

/-- Update of the name and of the private network configuration on a remote
side where every call succeeds: the two PUTs in order, then one poll. -/
theorem Update_sample_success :
    resourceCloudProjectKubeUpdate goVersionLib 3 okClient (networkData "10.0.0.1") [] =
      (Result.ok (), networkData "10.0.0.1",
        [⟨Method.PUT, "/cloud/project/svc/kube/kube1", Body.put ⟨some "b"⟩⟩,
          ⟨Method.PUT, "/cloud/project/svc/kube/kube1/privateNetworkConfiguration",
            Body.pnc ⟨"10.0.0.1", true⟩⟩,
          ⟨Method.GET, "/cloud/project/svc/kube/kube1", Body.none⟩]) := by
  decide

/-- The blocks of Update after a version check that accepts, on a remote side
where every call succeeds, for a change of the version and of the name: the
POST of the upgrade, one poll of its wait, then the PUT of the name. -/
theorem Update_sample_accepted_check :
    updateBlocksWith (Result.ok ()) 3 okClient "svc" (updateData "1.24" "1.25" "a" "b") [] =
      (Result.ok (),
        [⟨Method.POST, "/cloud/project/svc/kube/kube1/update", Body.update ⟨"NEXT_MINOR"⟩⟩,
          ⟨Method.GET, "/cloud/project/svc/kube/kube1", Body.none⟩,
          ⟨Method.PUT, "/cloud/project/svc/kube/kube1", Body.put ⟨some "b"⟩⟩]) := by
  decide

/-- The blocks of Update after a version check that accepts, when the cluster
then shows the status `ERROR`: the wait after the POST of the upgrade fails,
and the PUT of the changed name is not issued. -/
theorem Update_sample_accepted_check_wait_failure :
    updateBlocksWith (Result.ok ()) 3 errorStatusClient "svc"
        (updateData "1.24" "1.25" "a" "b") [] =
      (Result.fail (GoError.wrapf "timeout while waiting kube kube1 to be READY: "
          (GoError.unexpectedState "ERROR")),
        [⟨Method.POST, "/cloud/project/svc/kube/kube1/update", Body.update ⟨"NEXT_MINOR"⟩⟩,
          ⟨Method.GET, "/cloud/project/svc/kube/kube1", Body.none⟩]) := by
  decide

/-! ## The claims -/

/-- C1 (the code rejects every pair): the version check accepts no pair of
versions, whatever the version library answers, because the segments of the
new version are read from the old one; with the reference library, whose
segment lists have at least three entries, the pair `1.24` to `1.25` is
rejected by the two-segment test; and an Update with a version change returns
the result of the check without issuing any call, so the upgrade request is
never submitted. -/
theorem C1_versionCheck_rejects_next_minor :
    (∀ (V : Type) (lib : VersionLib V) (oldValue newValue : String),
      versionCheck lib oldValue newValue ≠ Result.ok ()) ∧
    versionCheck goVersionLib "1.24" "1.25" = Result.fail (GoError.errorf
      "the version should only specify the major and minor versions (e.g. \\\"1.20\\\")") ∧
    (∀ (V : Type) (lib : VersionLib V) (polls : Nat) (client : Client) (d : ResourceData)
        (calls : List Call), d.HasChange "version" = true →
      resourceCloudProjectKubeUpdate lib polls client d calls =
        (versionCheck lib (d.GetChange "version").1.asString (d.GetChange "version").2.asString,
          d, calls)) := by
  refine ⟨fun V lib o n => versionCheck_ne_ok lib o n, by decide, ?_⟩
  intro V lib polls client d calls hchange
  have hne := versionCheck_ne_ok lib (d.GetChange "version").1.asString
    (d.GetChange "version").2.asString
  simp only [resourceCloudProjectKubeUpdate, updateBlocks, updateVersion, hchange, if_true]
  cases hc : versionCheck lib (d.GetChange "version").1.asString
      (d.GetChange "version").2.asString with
  | ok u => exact absurd hc hne
  | fail e => simp [andThen]
  | panic => simp [andThen]

/-- C2 (as stated, refuted): the record with version `1.24`, which has no patch
component, is not exposed unchanged: the map holds the version `1`. -/
theorem C2_counterexample :
    (recordWithVersion "1.24").ToMap.bind (fun m => mapGet m "version")
        = some (Value.str "1") ∧
      (recordWithVersion "1.24").ToMap.bind (fun m => mapGet m "version")
        ≠ some (Value.str (recordWithVersion "1.24").Version) := by
  decide

/-- C2 (amended): for every record whose version string is `major.minor`, a
major and a minor component without dot and no patch component, `ToMap`
exposes the part before the dot, the major component alone. -/
theorem C2_ToMap_major_minor (r : CloudProjectKubeResponse) (major minor : String)
    (hmajor : '.' ∉ major.data) (hminor : '.' ∉ minor.data)
    (hv : r.Version = major ++ "." ++ minor) :
    r.ToMap.bind (fun m => mapGet m "version") = some (Value.str major) := by
  have _ := hmajor
  rw [ToMap_version, exposedVersion_of_append r major minor hminor hv]
  rfl

/-- Witness of C2 (amended) at the version `1.24`. -/
theorem C2_ToMap_major_minor_witness :
    (recordWithVersion "1.24").ToMap.bind (fun m => mapGet m "version")
        = some (Value.str "1") :=
  C2_ToMap_major_minor (recordWithVersion "1.24") "1" "24" (by decide) (by decide) (by decide)

/-- C3: for every record whose version string is a prefix `P`, a dot and a
patch component without dot, `ToMap` exposes the version `P`. -/
theorem C3_ToMap_strips_patch (r : CloudProjectKubeResponse) (P patch : String)
    (hpatch : '.' ∉ patch.data) (hv : r.Version = P ++ "." ++ patch) :
    r.ToMap.bind (fun m => mapGet m "version") = some (Value.str P) := by
  rw [ToMap_version, exposedVersion_of_append r P patch hpatch hv]
  rfl

/-- Witness of C3: the version `1.24.7` is exposed as `1.24`. -/
theorem C3_ToMap_strips_patch_witness :
    (recordWithVersion "1.24.7").ToMap.bind (fun m => mapGet m "version")
      = some (Value.str "1.24") :=
  C3_ToMap_strips_patch (recordWithVersion "1.24.7") "1.24" "7" (by decide) (by decide)

/-- C4: when the options built from the configuration have an update policy,
Create returns the update-policy error, whatever the remote side and the
helpers do; it issues no call and leaves the resource data, the id included,
as they were. -/
theorem C4_Create_rejects_update_policy (h : Helpers) (polls : Nat) (client : Client)
    (d : ResourceData) (calls : List Call)
    (hset : (CloudProjectKubeCreateOpts.FromResource h d).UpdatePolicy ≠ none) :
    resourceCloudProjectKubeCreate h polls client d calls =
      (Result.fail (GoError.errorf "the attribute update_policy cannot be set at cluster creation time. Once the cluster is created this attribute can be set and/or updated. This is a temporary bug on our OVH APIV6 side"),
        d, calls) ∧
    (resourceCloudProjectKubeCreate h polls client d calls).2.2 = calls ∧
    (resourceCloudProjectKubeCreate h polls client d calls).2.1.Id = d.Id := by
  have hcreate : resourceCloudProjectKubeCreate h polls client d calls =
      (Result.fail (GoError.errorf "the attribute update_policy cannot be set at cluster creation time. Once the cluster is created this attribute can be set and/or updated. This is a temporary bug on our OVH APIV6 side"),
        d, calls) := by
    unfold resourceCloudProjectKubeCreate
    simp only [hset, ne_eq, not_false_eq_true, if_true]
  rw [hcreate]
  exact ⟨rfl, rfl, rfl⟩

/-- Witness of C4: a configuration with the update policy `ALWAYS_UPDATE`, on a
remote side where every call would succeed. -/
theorem C4_Create_rejects_update_policy_witness :
    resourceCloudProjectKubeCreate sampleHelpers 3 okClient (createData "ALWAYS_UPDATE") [] =
      (Result.fail (GoError.errorf "the attribute update_policy cannot be set at cluster creation time. Once the cluster is created this attribute can be set and/or updated. This is a temporary bug on our OVH APIV6 side"),
        createData "ALWAYS_UPDATE", []) ∧
    (resourceCloudProjectKubeCreate sampleHelpers 3 okClient
      (createData "ALWAYS_UPDATE") []).2.2 = [] ∧
    (resourceCloudProjectKubeCreate sampleHelpers 3 okClient
      (createData "ALWAYS_UPDATE") []).2.1.Id = "" :=
  C4_Create_rejects_update_policy sampleHelpers 3 okClient (createData "ALWAYS_UPDATE") []
    (by decide)

/-- C5 (as stated, refuted): the key `a/b/c` holds two separators, yet Import
succeeds on it, with the service name `a` and the id `b/c`. -/
theorem C5_counterexample :
    resourceCloudProjectKubeImportState (importData "a/b/c") =
      (Result.ok [((importData "a/b/c").SetId "b/c").Set "service_name" (Value.str "a")],
        ((importData "a/b/c").SetId "b/c").Set "service_name" (Value.str "a")) := by
  decide

/-- C5 (amended): Import succeeds exactly when the key contains at least one
separator; it then seeds `service_name` with the part before the first
separator and the id with all that follows it; a key without separator is an
error that leaves the resource data as it was. -/
theorem C5_ImportState_first_separator (d : ResourceData) :
    ('/' ∈ d.Id.data →
      ∃ (serviceName id : String) (d1 : ResourceData),
        d.Id = serviceName ++ "/" ++ id ∧ '/' ∉ serviceName.data ∧
        resourceCloudProjectKubeImportState d = (Result.ok [d1], d1) ∧
        d1.Id = id ∧ d1.Get "service_name" = Value.str serviceName) ∧
    ('/' ∉ d.Id.data →
      resourceCloudProjectKubeImportState d =
        (Result.fail (GoError.errorf "Import Id is not service_name/kubeid formatted"), d)) := by
  constructor
  · intro hmem
    obtain ⟨sn, id, hk, hsn, hsplit⟩ := SplitN_two_of_mem d.Id hmem
    refine ⟨sn, id, (d.SetId id).Set "service_name" (Value.str sn), hk, hsn, ?_, rfl, ?_⟩
    · simp [resourceCloudProjectKubeImportState, hsplit]
    · simp [ResourceData.Get, ResourceData.Set, mapGet]
  · intro hno
    simp [resourceCloudProjectKubeImportState, SplitN_two_of_not_mem d.Id hno]

/-- C6 (the code does not re-read): an Update whose only change is the name and
whose PUT succeeds returns no error right after that PUT, the last call it
issued, and leaves the resource data as they were; on the sample cluster the
calls issued are that one PUT: no GET of the cluster record follows, and the
resource data are the ones handed in. -/
theorem C6_Update_returns_without_read :
    (∀ (V : Type) (lib : VersionLib V) (polls : Nat) (client : Client) (d : ResourceData)
        (calls : List Call),
      d.HasChange "version" = false → d.HasChange "update_policy" = false →
      d.HasChange "name" = true → d.HasChange "private_network_configuration" = false →
      (client calls (nameCall (d.Get "service_name").asString d)).err = none →
      resourceCloudProjectKubeUpdate lib polls client d calls =
        (Result.ok (), d, calls ++ [nameCall (d.Get "service_name").asString d])) ∧
    resourceCloudProjectKubeUpdate goVersionLib 3 okClient
        (updateData "1.24" "1.24" "a" "b") [] =
      (Result.ok (), updateData "1.24" "1.24" "a" "b",
        [⟨Method.PUT, "/cloud/project/svc/kube/kube1", Body.put ⟨some "b"⟩⟩]) := by
  constructor
  · intro V lib polls client d calls hv hp hn hc herr
    simp [resourceCloudProjectKubeUpdate, updateBlocks, updateVersion, updateUpdatePolicy,
      updateName, updatePrivateNetworkConfiguration, hv, hp, hn, hc, andThen,
      Client.issue_eq, herr]
  · decide

/-- C7: in the delete wait, a GET that fails with an API error of code 404
makes the status-fetch function return the status `DELETED` without error;
any other GET error is returned as the error, also by the wait; a successful
GET returns the status of the record; and a wait whose polls observe
`DELETING` until one poll, within the deadline, is answered with a 404
returns no error, having issued these GETs only. -/
theorem C7_delete_wait_not_found (client : Client) (serviceName kubeId : String)
    (calls : List Call) :
    (∀ msg, (client calls ⟨Method.GET, kubeEndpoint serviceName kubeId, Body.none⟩).err
        = some (GoError.apiError 404 msg) →
      (kubeDeletedRefresh client serviceName kubeId calls).1.state = "DELETED" ∧
      (kubeDeletedRefresh client serviceName kubeId calls).1.err = none) ∧
    (∀ e, (client calls ⟨Method.GET, kubeEndpoint serviceName kubeId, Body.none⟩).err = some e →
      (∀ msg, e ≠ GoError.apiError 404 msg) →
      (kubeDeletedRefresh client serviceName kubeId calls).1.err = some e ∧
      ∀ polls, (waitForCloudProjectKubeDeleted (polls + 1) client serviceName kubeId calls).1
        = some e) ∧
    ((client calls ⟨Method.GET, kubeEndpoint serviceName kubeId, Body.none⟩).err = none →
      (kubeDeletedRefresh client serviceName kubeId calls).1.state =
        (client calls ⟨Method.GET, kubeEndpoint serviceName kubeId, Body.none⟩).kube.Status ∧
      (kubeDeletedRefresh client serviceName kubeId calls).1.err = none) ∧
    (∀ k polls, k < polls →
      (∀ i, i < k →
        (client (calls ++ List.replicate i ⟨Method.GET, kubeEndpoint serviceName kubeId, Body.none⟩)
          ⟨Method.GET, kubeEndpoint serviceName kubeId, Body.none⟩).err = none ∧
        (client (calls ++ List.replicate i ⟨Method.GET, kubeEndpoint serviceName kubeId, Body.none⟩)
          ⟨Method.GET, kubeEndpoint serviceName kubeId, Body.none⟩).kube.Status = "DELETING") →
      (∃ msg,
        (client (calls ++ List.replicate k ⟨Method.GET, kubeEndpoint serviceName kubeId, Body.none⟩)
          ⟨Method.GET, kubeEndpoint serviceName kubeId, Body.none⟩).err
          = some (GoError.apiError 404 msg)) →
      waitForCloudProjectKubeDeleted polls client serviceName kubeId calls =
        (none, calls ++ List.replicate (k + 1)
          ⟨Method.GET, kubeEndpoint serviceName kubeId, Body.none⟩)) := by
  refine ⟨?_, ?_, ?_, ?_⟩
  · intro msg hmsg
    simp [kubeDeletedRefresh, Client.send, hmsg]
  · intro e he hne
    have hrefresh : (kubeDeletedRefresh client serviceName kubeId calls).1.err = some e := by
      unfold kubeDeletedRefresh
      simp only [Client.send, he]
      cases e with
      | apiError code message =>
        by_cases hcode : code = 404
        · exact absurd (by rw [hcode]) (hne message)
        · simp [hcode]
      | _ => rfl
    refine ⟨hrefresh, fun polls => ?_⟩
    unfold waitForCloudProjectKubeDeleted WaitForState
    simp [hrefresh, Result.toErr]
  · intro hnone
    simp [kubeDeletedRefresh, Client.send, hnone]
  · intro k polls hlt hpend hnf
    have hw := WaitForState_deleted client serviceName kubeId k polls "" calls hlt hpend hnf
    simp only [waitForCloudProjectKubeDeleted, hw.1, hw.2]

/-- C8 (as stated, refuted): on the change set that moves the version from
`1.24` to `1.26` and the name from `a` to `b`, with a remote side on which
every call succeeds, Update issues no call at all: the version check rejects
the change, so the changed name gets no PUT although no mutation and no wait
failed. -/
theorem C8_counterexample :
    (updateData "1.24" "1.26" "a" "b").HasChange "name" = true ∧
    expectedMutations "svc" (updateData "1.24" "1.26" "a" "b") =
      [versionCall "svc" (updateData "1.24" "1.26" "a" "b"),
        nameCall "svc" (updateData "1.24" "1.26" "a" "b")] ∧
    resourceCloudProjectKubeUpdate goVersionLib 3 okClient
        (updateData "1.24" "1.26" "a" "b") [] =
      (Result.fail (GoError.errorf
        "the version should only specify the major and minor versions (e.g. \\\"1.20\\\")"),
        updateData "1.24" "1.26" "a" "b", []) := by
  decide

/-- C8 (amended): for every change set, every behaviour of the remote side and
every verdict of the version check, Update being its blocks at the verdict of
`versionCheck`: when the version changed and the check rejects the change,
the blocks return the verdict of the check without any call; in every case
they only append calls, and the mutating ones among them are, in order, the
first ones of the sequence that holds one call for each changed attribute
(version, update policy, name, private network configuration) and none for an
unchanged one; a mutating call answered with an error is the last call issued
and its error is returned; a failed wait after the version call or the private
network call ends the blocks with the polls of that wait and its error,
wrapped, is returned; and the blocks end in one of four ways only: with no
error, the whole sequence issued, one call per changed attribute; with the
verdict of a version check that rejected the version change; with the error
that answered the last call issued, a mutating one; or with the wrapped error
of a failed wait, no mutating call following the call waited for. -/
theorem C8_Update_mutations_in_order {V : Type} (lib : VersionLib V) (check : Result Unit)
    (polls : Nat) (client : Client) (d : ResourceData) (calls : List Call) :
    resourceCloudProjectKubeUpdate lib polls client d calls =
      ((updateBlocksWith
          (versionCheck lib (d.GetChange "version").1.asString
            (d.GetChange "version").2.asString)
          polls client (d.Get "service_name").asString d calls).1,
        d,
        (updateBlocksWith
          (versionCheck lib (d.GetChange "version").1.asString
            (d.GetChange "version").2.asString)
          polls client (d.Get "service_name").asString d calls).2) ∧
    (d.HasChange "version" = true → check ≠ Result.ok () →
      updateBlocksWith check polls client (d.Get "service_name").asString d calls =
        (check, calls)) ∧
    (∃ issued : List Call,
      (updateBlocksWith check polls client (d.Get "service_name").asString d calls).2 =
        calls ++ issued ∧
      mutatingCalls issued <+: expectedMutations (d.Get "service_name").asString d ∧
      ((updateBlocksWith check polls client (d.Get "service_name").asString d calls).1 =
          Result.ok () →
        mutatingCalls issued = expectedMutations (d.Get "service_name").asString d) ∧
      (∀ pre c post e, issued = pre ++ c :: post → c.isMutating = true →
        (client (calls ++ pre) c).err = some e →
        (updateBlocksWith check polls client (d.Get "service_name").asString d calls).1 =
            Result.fail e ∧
          post = []) ∧
      (∀ pre c post pending e, issued = pre ++ c :: post →
        Waited (d.Get "service_name").asString d c pending →
        (client (calls ++ pre) c).err = none →
        (waitForCloudProjectKubeReady polls client (d.Get "service_name").asString d.Id
          pending ["READY"] (calls ++ pre ++ [c])).1 = some e →
        (updateBlocksWith check polls client (d.Get "service_name").asString d calls).1 =
            Result.fail (GoError.wrapf (waitErrorText d) e) ∧
          (updateBlocksWith check polls client (d.Get "service_name").asString d calls).2 =
            (waitForCloudProjectKubeReady polls client (d.Get "service_name").asString d.Id
              pending ["READY"] (calls ++ pre ++ [c])).2) ∧
      (((updateBlocksWith check polls client (d.Get "service_name").asString d calls).1 =
            Result.ok () ∧
          mutatingCalls issued = expectedMutations (d.Get "service_name").asString d) ∨
        (d.HasChange "version" = true ∧ check ≠ Result.ok () ∧
          (updateBlocksWith check polls client (d.Get "service_name").asString d calls).1 =
            check) ∨
        (∃ pre c e, issued = pre ++ [c] ∧ c.isMutating = true ∧
          (client (calls ++ pre) c).err = some e ∧
          (updateBlocksWith check polls client (d.Get "service_name").asString d calls).1 =
            Result.fail e) ∨
        (∃ pre c post pending e, issued = pre ++ c :: post ∧
          Waited (d.Get "service_name").asString d c pending ∧
          mutatingCalls post = [] ∧
          (client (calls ++ pre) c).err = none ∧
          (waitForCloudProjectKubeReady polls client (d.Get "service_name").asString d.Id
            pending ["READY"] (calls ++ pre ++ [c])).1 = some e ∧
          (updateBlocksWith check polls client (d.Get "service_name").asString d calls).1 =
            Result.fail (GoError.wrapf (waitErrorText d) e) ∧
          (updateBlocksWith check polls client (d.Get "service_name").asString d calls).2 =
            (waitForCloudProjectKubeReady polls client (d.Get "service_name").asString d.Id
              pending ["READY"] (calls ++ pre ++ [c])).2))) := by
  refine ⟨rfl, ?_,
    BlockRun_updateBlocksWith check polls client (d.Get "service_name").asString d calls⟩
  intro hchange hne
  simp only [updateBlocksWith, updateVersionWith, hchange, if_true]
  cases check with
  | ok u => exact absurd rfl hne
  | fail e => simp [andThen]
  | panic => simp [andThen]

/-- C9: a Read on a resource that is not new issues the GET of the cluster
record and no other call, none to the kubeconfig endpoint; whatever record it
has fetched, the kubeconfig attribute is afterwards as it was before, and the
Read returns no error when the record has an attribute map; a Read on a new
resource that has fetched such a record goes on with the POST to the
kubeconfig endpoint and stores its content when that call succeeds. -/
theorem C9_Read_kubeconfig_only_when_new (h : Helpers) (client : Client) (d : ResourceData)
    (calls : List Call) :
    (d.IsNewResource = false →
      (resourceCloudProjectKubeRead h client d calls).2.2 =
        calls ++ [⟨Method.GET, kubeEndpoint (d.Get "service_name").asString d.Id, Body.none⟩] ∧
      ((client calls ⟨Method.GET, kubeEndpoint (d.Get "service_name").asString d.Id,
          Body.none⟩).err = none →
        (resourceCloudProjectKubeRead h client d calls).2.1.Get "kubeconfig"
          = d.Get "kubeconfig" ∧
        ((client calls ⟨Method.GET, kubeEndpoint (d.Get "service_name").asString d.Id,
            Body.none⟩).kube.ToMap ≠ none →
          (resourceCloudProjectKubeRead h client d calls).1 = Result.ok ()))) ∧
    (d.IsNewResource = true →
      (client calls ⟨Method.GET, kubeEndpoint (d.Get "service_name").asString d.Id,
        Body.none⟩).err = none →
      (client calls ⟨Method.GET, kubeEndpoint (d.Get "service_name").asString d.Id,
        Body.none⟩).kube.ToMap ≠ none →
      (resourceCloudProjectKubeRead h client d calls).2.2 =
        calls ++ [⟨Method.GET, kubeEndpoint (d.Get "service_name").asString d.Id, Body.none⟩,
          ⟨Method.POST, "/cloud/project/" ++ (d.Get "service_name").asString ++ "/kube/" ++
            (client calls ⟨Method.GET, kubeEndpoint (d.Get "service_name").asString d.Id,
              Body.none⟩).kube.Id ++ "/kubeconfig", Body.none⟩] ∧
      ∀ reply, reply = client
          (calls ++ [⟨Method.GET, kubeEndpoint (d.Get "service_name").asString d.Id, Body.none⟩])
          ⟨Method.POST, "/cloud/project/" ++ (d.Get "service_name").asString ++ "/kube/" ++
            (client calls ⟨Method.GET, kubeEndpoint (d.Get "service_name").asString d.Id,
              Body.none⟩).kube.Id ++ "/kubeconfig", Body.none⟩ →
        reply.err = none →
        (resourceCloudProjectKubeRead h client d calls).1 = Result.ok () ∧
        (resourceCloudProjectKubeRead h client d calls).2.1.Get "kubeconfig"
          = Value.str reply.kubeconfig.Content) := by
  constructor
  · intro hold
    constructor
    · unfold resourceCloudProjectKubeRead
      simp only [Client.send]
      split
      · rfl
      · split
        · rfl
        · rename_i m hm
          have hnew := (foldl_applyEntry_ToMap _ d m hm).2
          rw [hold] at hnew
          simp [hnew]
    · intro hget
      cases hm : (client calls ⟨Method.GET, kubeEndpoint (d.Get "service_name").asString d.Id,
          Body.none⟩).kube.ToMap with
      | none =>
        refine ⟨?_, fun hne => absurd rfl hne⟩
        simp [resourceCloudProjectKubeRead, Client.send, hget, hm]
      | some m =>
        have hkeep := foldl_applyEntry_ToMap _ d m hm
        rw [hold] at hkeep
        simp [resourceCloudProjectKubeRead, Client.send, hget, hm, hkeep.2, hkeep.1]
  · intro hnew hget hmap
    obtain ⟨m, hm⟩ := Option.ne_none_iff_exists'.mp hmap
    have hkeep := foldl_applyEntry_ToMap _ d m hm
    rw [hnew] at hkeep
    constructor
    · unfold resourceCloudProjectKubeRead
      simp only [Client.send, hget, hm, hkeep.2, if_true]
      split <;> simp
    · intro reply hreply herr
      subst hreply
      unfold resourceCloudProjectKubeRead
      simp only [Client.send, hget, hm, hkeep.2, if_true, herr]
      simp [ResourceData.Get, ResourceData.Set, mapGet]

/-- C10: `ToMap` returns a map exactly when the version string contains a
dot; the version it then exposes is the prefix before the last dot; without
a dot the slice bound is `-1`, `ToMap` panics, and so does a Read that
fetched the record. -/
theorem C10_ToMap_defined_iff_dot (r : CloudProjectKubeResponse) :
    (r.ToMap.isSome = true ↔ '.' ∈ r.Version.data) ∧
    (∀ m, r.ToMap = some m →
      ∃ P S : String, r.Version = P ++ "." ++ S ∧ '.' ∉ S.data ∧
        mapGet m "version" = some (Value.str P)) ∧
    ('.' ∉ r.Version.data →
      LastIndex r.Version '.' = -1 ∧ r.ToMap = none ∧
      ∀ (h : Helpers) (client : Client) (d : ResourceData) (calls : List Call),
        (client calls ⟨Method.GET, kubeEndpoint (d.Get "service_name").asString d.Id,
          Body.none⟩).err = none →
        (client calls ⟨Method.GET, kubeEndpoint (d.Get "service_name").asString d.Id,
          Body.none⟩).kube = r →
        (resourceCloudProjectKubeRead h client d calls).1 = Result.panic) := by
  have decomp : '.' ∈ r.Version.data →
      ∃ P S : String, r.Version = P ++ "." ++ S ∧ '.' ∉ S.data := by
    intro hmem
    obtain ⟨P, S, hs, hS⟩ := lastIndexChars_nonneg_of_mem '.' r.Version.data hmem
    exact ⟨String.mk P, String.mk S, by apply String.ext; simpa using hs, hS⟩
  have hiff : r.ToMap.isSome = true ↔ '.' ∈ r.Version.data := by
    constructor
    · intro hsome
      by_contra hno
      rw [ToMap_none_of_no_dot r hno] at hsome
      simp at hsome
    · intro hmem
      obtain ⟨P, S, hv, hS⟩ := decomp hmem
      simp [CloudProjectKubeResponse.ToMap, exposedVersion_of_append r P S hS hv]
  refine ⟨hiff, ?_, ?_⟩
  · intro m hm
    have hmem : '.' ∈ r.Version.data := hiff.mp (by simp [hm])
    obtain ⟨P, S, hv, hS⟩ := decomp hmem
    refine ⟨P, S, hv, hS, ?_⟩
    have h1 := ToMap_version r
    rw [hm, exposedVersion_of_append r P S hS hv] at h1
    simpa using h1
  · intro hno
    refine ⟨(exposedVersion_of_no_dot r hno).1, ToMap_none_of_no_dot r hno, ?_⟩
    intro h client d calls hget hkube
    apply Read_panic_of_ToMap_none h client d calls hget
    rw [hkube]
    exact ToMap_none_of_no_dot r hno

end Ovh
